import Mathlib

/-! # lineItemSorter: a shallow embedding of the reorderable-list editor

The component `lineItemSorter.js` keeps an ordered list of rows and a list of
columns, loads them through a remote call, lets the user resize columns and
drag rows, and saves the row order through a second remote call.

JavaScript values that the component only passes around (record fields, error
values, labels) are embedded as `JVal`.  Asynchronous methods are embedded as
functions that take the outcome of their remote call as an argument and return
the final state together with the list of observable effects, in order, each
with the state of the component at the moment it happens.
-/

namespace LineItemSorter

/-! ## JavaScript values -/

/-- JavaScript values: `undefined`, `null`, booleans, integral numbers, strings and
plain objects (own properties in enumeration order), and three kinds that only property
reads produce: `surrogate u`, the string of the single UTF-16 code unit `u`, a lone
surrogate (one half of a character outside the basic plane); `builtin name`, a built-in
object of the engine, a prototype or a function held by one, named by a property path
that reaches it; and `engineDefined`, the outcome of reading a property of a built-in
object, which is not described here: it may be any value, or the read may raise. -/
inductive JVal where
  | undefined : JVal
  | null : JVal
  | bool (b : Bool) : JVal
  | num (n : Int) : JVal
  | str (s : String) : JVal
  | obj (props : List (String × JVal)) : JVal
  | surrogate (unit : Nat) : JVal
  | builtin (name : String) : JVal
  | engineDefined : JVal

/-- Truthiness of a value, as tested by `!v`, `a || b` and `if (v)`.  Built-in objects
are truthy; for `engineDefined` the answer stands for nothing. -/
def JVal.truthy : JVal → Bool
  | .undefined => false
  | .null => false
  | .bool b => b
  | .num n => n != 0
  | .str s => s != ""
  | .obj _ => true
  | .surrogate _ => true
  | .builtin _ => true
  | .engineDefined => true

/-- Values for which `v == null` holds: `null` and `undefined`. -/
def JVal.isNullish : JVal → Bool
  | .undefined => true
  | .null => true
  | _ => false

/-- A value that comes from the engine's built-in objects. -/
def JVal.ofEngine : JVal → Bool
  | .builtin _ => true
  | .engineDefined => true
  | _ => false

/-- The expression `a || b`. -/
def JVal.or (a b : JVal) : JVal := if a.truthy then a else b

/-- The expression `a ?? b`. -/
def JVal.coalesce (a b : JVal) : JVal := if a.isNullish then b else a

/-- Own property `key` of an object given by its property list (`undefined` when the
object has no such own property). -/
def lookupProp : List (String × JVal) → String → JVal
  | [], _ => .undefined
  | (k, v) :: rest, key => if k = key then v else lookupProp rest key

/-- The number of UTF-16 code units of a character: two outside the basic plane. -/
def utf16Size (c : Char) : Nat := if c.toNat < 0x10000 then 1 else 2

/-- The length of a string in UTF-16 code units, which is what `length` counts. -/
def utf16Length : List Char → Nat
  | [] => 0
  | c :: cs => utf16Size c + utf16Length cs

/-- The one-unit string at a UTF-16 index of a string; `none` past the end.  A
character outside the basic plane takes two indices, each holding a lone surrogate. -/
def utf16At : List Char → Nat → Option JVal
  | [], _ => none
  | c :: cs, i =>
    if c.toNat < 0x10000 then
      match i with
      | 0 => some (.str (String.singleton c))
      | i + 1 => utf16At cs i
    else
      match i with
      | 0 => some (.surrogate (0xD800 + (c.toNat - 0x10000) / 0x400))
      | 1 => some (.surrogate (0xDC00 + (c.toNat - 0x10000) % 0x400))
      | i + 2 => utf16At cs i

/-- Own property `key` of a string: `length` and the code unit at an index; `none`
when the string has no such own property. -/
def stringProp (s : String) (key : String) : Option JVal :=
  if key = "length" then some (.num (utf16Length s.toList))
  else match key.toNat? with
    | some i => if toString i = key then utf16At s.toList i else none
    | none => none

/-- The names of the methods of `Object.prototype` (ECMAScript 2024, Annex B included). -/
def objectPrototypeMethods : List String :=
  ["hasOwnProperty", "isPrototypeOf", "propertyIsEnumerable", "toLocaleString", "toString",
   "valueOf", "__defineGetter__", "__defineSetter__", "__lookupGetter__", "__lookupSetter__"]

/-- The names of the methods of `String.prototype` (ECMAScript 2024, Annex B included). -/
def stringPrototypeMethods : List String :=
  ["at", "charAt", "charCodeAt", "codePointAt", "concat", "endsWith", "includes", "indexOf",
   "isWellFormed", "lastIndexOf", "localeCompare", "match", "matchAll", "normalize", "padEnd",
   "padStart", "repeat", "replace", "replaceAll", "search", "slice", "split", "startsWith",
   "substring", "toLocaleLowerCase", "toLocaleUpperCase", "toLowerCase", "toString",
   "toUpperCase", "toWellFormed", "trim", "trimEnd", "trimStart", "valueOf", "substr",
   "anchor", "big", "blink", "bold", "fixed", "fontcolor", "fontsize", "italics", "link",
   "small", "strike", "sub", "sup", "trimLeft", "trimRight"]

/-- The names of the methods of `Number.prototype`. -/
def numberPrototypeMethods : List String :=
  ["toExponential", "toFixed", "toLocaleString", "toPrecision", "toString", "valueOf"]

/-- The names of the methods of `Boolean.prototype`. -/
def booleanPrototypeMethods : List String :=
  ["toString", "valueOf"]

/-- The names an object inherits from `Object.prototype`: its methods, `constructor`
and the accessor `__proto__`. -/
def objectInheritedNames : List String :=
  "constructor" :: "__proto__" :: objectPrototypeMethods

/-- The member `key` that a value without own property `key` finds on its prototype
chain: the prototype of its constructor `ctor`, which has the methods `methods`, and
then `Object.prototype`; `undefined` when neither has it. -/
def inheritedMember (ctor : String) (methods : List String) (key : String) : JVal :=
  if key = "constructor" then .builtin ctor
  else if key = "__proto__" then .builtin (ctor ++ ".prototype")
  else if key ∈ methods then .builtin (ctor ++ ".prototype." ++ key)
  else if key ∈ objectPrototypeMethods then .builtin ("Object.prototype." ++ key)
  else .undefined

/-- The expression `v?.[key]`: `undefined` when `v` is `null` or `undefined`; otherwise
the own property when there is one, and the member found on the prototype chain when
there is none.  Reading a property of a built-in object is `engineDefined`. -/
def JVal.optGet (v : JVal) (key : String) : JVal :=
  match v with
  | .undefined => .undefined
  | .null => .undefined
  | .obj props =>
    if key ∈ props.map Prod.fst then lookupProp props key
    else inheritedMember "Object" objectPrototypeMethods key
  | .str s =>
    match stringProp s key with
    | some own => own
    | none => inheritedMember "String" stringPrototypeMethods key
  | .surrogate u =>
    if key = "length" then .num 1
    else if key = "0" then .surrogate u
    else inheritedMember "String" stringPrototypeMethods key
  | .num _ => inheritedMember "Number" numberPrototypeMethods key
  | .bool _ => inheritedMember "Boolean" booleanPrototypeMethods key
  | .builtin _ => .engineDefined
  | .engineDefined => .engineDefined

/-- Truthiness of a configuration input: unset and the empty string are falsy. -/
def truthyStr : Option String → Bool
  | none => false
  | some s => s != ""

/-- The value `new Error(msg)`: an object whose `message` is `msg`. -/
def mkError (msg : String) : JVal := .obj [("message", .str msg)]

/-! ## Data model -/

def DEFAULT_COL_WIDTH : Int := 140

def MIN_COL_WIDTH : Int := 80

/-- One cell of a row: `{ fieldApi, value }`. -/
structure Cell where
  fieldApi : String
  value : JVal

/-- One column: `{ fieldApi, label, width }`. -/
structure Column where
  fieldApi : String
  label : JVal
  width : Int

/-- One element of `lineItems`: `{ id, itemSortNumber, displayOrder, cells }`.
`cells` is `none` when the property is absent. -/
structure Row where
  id : JVal
  itemSortNumber : JVal
  displayOrder : Nat
  cells : Option (List Cell)

/-- The value of `resizeState` while a resize is in progress. -/
structure ResizeState where
  index : Int
  startX : Int
  startWidth : Int

/-- The fields of the component.  The five `@api` inputs are strings or unset;
`draggedIndex` is `none` for `undefined`/`null`, `resizeState` is `none` for `null`. -/
structure State where
  recordId : Option String
  childObjectApiName : Option String
  parentFieldApiName : Option String
  sortFieldApiName : Option String
  fieldsCsv : Option String
  lineItems : List Row
  columns : List Column
  errorMessage : JVal
  objectLabel : JVal
  isLoading : Bool
  draggedIndex : Option Int
  resizeState : Option ResizeState

/-- The component as constructed, with the five inputs given by the host. -/
def initialState (recordId childObjectApiName parentFieldApiName sortFieldApiName
    fieldsCsv : Option String) : State :=
  { recordId := recordId
    childObjectApiName := childObjectApiName
    parentFieldApiName := parentFieldApiName
    sortFieldApiName := sortFieldApiName
    fieldsCsv := fieldsCsv
    lineItems := []
    columns := []
    errorMessage := .undefined
    objectLabel := .undefined
    isLoading := false
    draggedIndex := none
    resizeState := none }

/-! ## Remote calls and effects -/

/-- The value `getRecords` resolves to: `{ objectLabel, fieldLabels, records }`.
`fieldLabels` and `records` are `none` when they are `null` or `undefined`. -/
structure FetchResult where
  objectLabel : JVal
  fieldLabels : Option (List (String × JVal))
  records : Option (List JVal)

/-- Outcome of `await getRecords(...)`: rejected with a value, or resolved with a
result (`none` when the resolved value is `null` or `undefined`). -/
inductive FetchOutcome where
  | rejected (e : JVal) : FetchOutcome
  | resolved (result : Option FetchResult) : FetchOutcome

/-- What one run of `loadData` meets outside the component: the outcome of the
fetch, and the `TypeError` value the engine raises when the transformation reads
a property of `null` or `undefined` (at most one is raised in a run). -/
structure LoadEnv where
  fetch : FetchOutcome
  typeError : JVal

/-- Outcome of `await updateSortOrder(...)`. -/
inductive PersistOutcome where
  | rejected (e : JVal) : PersistOutcome
  | resolved : PersistOutcome

/-- Observable effects, listed in the order they happen.  `loadDataCalled` marks
an invocation of `loadData`. -/
inductive Effect where
  | loadDataCalled : Effect
  | getRecords (childObjectApiName parentRecordId parentFieldApiName sortFieldApiName
      fieldsCsv : Option String) : Effect
  | updateSortOrder (recIdsInOrder : List JVal)
      (sortFieldApiName childObjectApiName : Option String) : Effect
  | toast (title : String) (message : JVal) (variant : String) : Effect

def Effect.isGetRecords : Effect → Bool
  | .getRecords _ _ _ _ _ => true
  | _ => false

def Effect.isUpdateSortOrder : Effect → Bool
  | .updateSortOrder _ _ _ => true
  | _ => false

def Effect.isToast : Effect → Bool
  | .toast _ _ _ => true
  | _ => false

def Effect.isLoadDataCalled : Effect → Bool
  | .loadDataCalled => true
  | _ => false

/-! ## Helpers of the component -/

/-- The method `normalizeError`: `e?.body?.message || e?.message || '処理に失敗しました。'`. -/
def normalizeError (e : JVal) : JVal :=
  (((e.optGet "body").optGet "message").or (e.optGet "message")).or (.str "処理に失敗しました。")

/-- The pieces of a character list between occurrences of `sep`, as `split(sep)` gives. -/
def splitChars (sep : Char) : List Char → List (List Char)
  | [] => [[]]
  | c :: cs =>
    if c = sep then [] :: splitChars sep cs
    else match splitChars sep cs with
      | p :: ps => (c :: p) :: ps
      | [] => [[c]]

/-- The method `resolvedField(record, fieldApi)` for a spec that is a string, or absent
(`none`): the value it returns. -/
def resolvedField (record : JVal) (fieldApi : Option String) : JVal :=
  match fieldApi with
  | none => .str ""
  | some f =>
    if !record.truthy || f == "" then .str ""
    else if f.toList.contains '.' then
      match splitChars '.' f.toList with
      | [rel, fld] => ((record.optGet (String.mk rel)).optGet (String.mk fld)).coalesce (.str "")
      | _ => .str ""
    else (record.optGet f).coalesce (.str "")

/-- A spec that is a string or absent, as a value. -/
def specValue : Option String → JVal
  | none => .undefined
  | some f => .str f

/-- The method `resolvedField(record, fieldApi)` for a spec of any kind: the value it
returns, or the `TypeError` it raises.  A truthy spec that is not a string has no
method `includes`, and calling what it holds under that name raises unless that is a
built-in object; a spec that is a lone surrogate names no property of a value. -/
def resolvedFieldAny (typeError : JVal) (record fieldApi : JVal) : Except JVal JVal :=
  if !record.truthy || !fieldApi.truthy then .ok (.str "")
  else
    match fieldApi with
    | .str f => .ok (resolvedField record (some f))
    | .surrogate _ => .ok (if record.ofEngine then .engineDefined else .str "")
    | other =>
      if (other.optGet "includes").ofEngine then .ok .engineDefined else .error typeError

/-- The call `xs.map((x, idx) => f x idx)` with `idx` counted from `start`. -/
def mapIdxFrom {α β : Type} (f : α → Nat → β) : Nat → List α → List β
  | _, [] => []
  | start, x :: xs => f x start :: mapIdxFrom f (start + 1) xs

/-! ## Loading -/

/-- The object one record is mapped to in `loadData`; `none` when reading `rec.Id`
raises because `rec` is `null` or `undefined`. -/
def buildRow (s : State) (rec : JVal) (idx : Nat) : Option Row :=
  if rec.isNullish then none
  else some
    { id := rec.optGet "Id"
      itemSortNumber := resolvedField rec s.sortFieldApiName
      displayOrder := idx + 1
      cells := some (s.columns.map fun col =>
        { fieldApi := col.fieldApi, value := resolvedField rec (some col.fieldApi) }) }

/-- The call `result.records.map((rec, idx) => ...)` of `loadData`, with `idx`
counted from `start`; `none` when the callback raises on some record. -/
def buildRows (s : State) : Nat → List JVal → Option (List Row)
  | _, [] => some []
  | start, rec :: rest =>
    match buildRow s rec start with
    | none => none
    | some row =>
      match buildRows s (start + 1) rest with
      | none => none
      | some rows => some (row :: rows)

/-- The columns built from `result.fieldLabels`: one per key of `Object.keys`. -/
def buildColumns (fieldLabels : List (String × JVal)) : List Column :=
  (fieldLabels.map Prod.fst).map fun apiName =>
    { fieldApi := apiName, label := lookupProp fieldLabels apiName, width := DEFAULT_COL_WIDTH }

/-- The `try` block of `loadData`: the state when the block is left, the value
raised (`none` when the block completes), and the remote calls made, each with the
state of the component at the moment of the call. -/
def loadTry (s : State) (env : LoadEnv) : State × Option JVal × List (State × Effect) :=
  if !truthyStr s.recordId then
    (s, some (mkError "親レコードIDの取得に失敗しました。"), [])
  else if !truthyStr s.childObjectApiName then
    (s, some (mkError "childObjectApiName が未指定です。"), [])
  else if !truthyStr s.parentFieldApiName then
    (s, some (mkError "parentFieldApiName が未指定です。"), [])
  else if !truthyStr s.sortFieldApiName then
    (s, some (mkError "sortFieldApiName が未指定です。"), [])
  else if !truthyStr s.fieldsCsv then
    (s, some (mkError "fieldsCsv が未指定です。"), [])
  else
    let call := (s, Effect.getRecords s.childObjectApiName s.recordId s.parentFieldApiName
      s.sortFieldApiName s.fieldsCsv)
    match env.fetch with
    | .rejected e => (s, some e, [call])
    | .resolved none => (s, some env.typeError, [call])
    | .resolved (some result) =>
      let s1 := { s with objectLabel := result.objectLabel }
      match result.fieldLabels with
      | none => (s1, some env.typeError, [call])
      | some fieldLabels =>
        let s2 := { s1 with columns := buildColumns fieldLabels }
        match result.records with
        | none => (s2, some env.typeError, [call])
        | some records =>
          match buildRows s2 0 records with
          | none => (s2, some env.typeError, [call])
          | some rows => ({ s2 with lineItems := rows }, none, [call])

/-- The state `loadData` has set up when it enters its `try` block. -/
def loadBegin (s : State) : State :=
  { s with isLoading := true, errorMessage := .null }

/-- The method `loadData`, given what the run meets outside the component: the final
state, and the effects in order, each with the state of the component at that moment. -/
def loadDataRun (s : State) (env : LoadEnv) : State × List (State × Effect) :=
  let r := loadTry (loadBegin s) env
  let s2 := match r.2.1 with
    | some e => { r.1 with errorMessage := normalizeError e }
    | none => r.1
  ({ s2 with isLoading := false }, (s, Effect.loadDataCalled) :: r.2.2)

/-- The method `loadData`: the final state and the effects in order. -/
def loadData (s : State) (env : LoadEnv) : State × List Effect :=
  ((loadDataRun s env).1, (loadDataRun s env).2.map Prod.snd)

/-- The value raised inside `loadData`, `none` when the load is successful. -/
def loadError (s : State) (env : LoadEnv) : Option JVal :=
  (loadTry (loadBegin s) env).2.1

/-! ## Column resize -/

/-- The element `xs[index]` for an integer index; `none` for `undefined`. -/
def elemAt {α : Type} (xs : List α) (index : Int) : Option α :=
  if index < 0 then none else xs.get? index.toNat

/-- The method `handleResizeStart`, for `data-index` = `index` and `e.clientX` = `clientX`. -/
def handleResizeStart (s : State) (index clientX : Int) : State :=
  let currentWidth :=
    match elemAt s.columns index with
    | some col => if col.width ≠ 0 then col.width else DEFAULT_COL_WIDTH
    | none => DEFAULT_COL_WIDTH
  { s with resizeState := some { index := index, startX := clientX, startWidth := currentWidth } }

/-- The method `handleMouseMove`, for `e.clientX` = `clientX`. -/
def handleMouseMove (s : State) (clientX : Int) : State :=
  match s.resizeState with
  | none => s
  | some rs =>
    let delta := clientX - rs.startX
    let nextWidth := max MIN_COL_WIDTH (rs.startWidth + delta)
    let columns := mapIdxFrom
      (fun col idx => if (idx : Int) = rs.index then { col with width := nextWidth } else col)
      0 s.columns
    { s with columns := columns }

/-- The method `handleMouseUp`. -/
def handleMouseUp (s : State) : State :=
  { s with resizeState := none }

/-! ## Drag and drop -/

/-- The position at which `splice(start, ...)` acts on an array of length `len`:
a negative `start` counts from the end, and the result is kept within `0..len`. -/
def spliceStart (len : Nat) (start : Int) : Nat :=
  if start < 0 then ((len : Int) + start).toNat else min start.toNat len

/-- The object `{ ...undefined, displayOrder }` before `displayOrder` is set: it
has no other property. -/
def blankRow : Row :=
  { id := .undefined, itemSortNumber := .undefined, displayOrder := 0, cells := none }

/-- The method `handleDragStart`, for `data-index` = `index`. -/
def handleDragStart (s : State) (index : Int) : State :=
  { s with draggedIndex := some index }

/-- The method `handleDrop`, for `data-index` = `targetIndex`. -/
def handleDrop (s : State) (targetIndex : Int) : State :=
  match s.draggedIndex with
  | none => s
  | some dragged =>
    if targetIndex = dragged then s
    else
      let src := spliceStart s.lineItems.length dragged
      let moved := (s.lineItems.get? src).getD blankRow
      let items := s.lineItems.eraseIdx src
      let dst := spliceStart items.length targetIndex
      let items := items.insertIdx dst moved
      { s with
        lineItems := mapIdxFrom (fun item idx => { item with displayOrder := idx + 1 }) 0 items,
        draggedIndex := none }

/-! ## Saving -/

/-- The method `handleSave`, given the outcome of the persist call and what the
reload (if any) meets: the final state, and the effects in order, each with the state
of the component at that moment. -/
def handleSaveRun (s : State) (persist : PersistOutcome) (reload : LoadEnv) :
    State × List (State × Effect) :=
  let s0 := { s with isLoading := true }
  let orderedIds := s0.lineItems.map fun row => row.id
  let call := Effect.updateSortOrder orderedIds s0.sortFieldApiName s0.childObjectApiName
  match persist with
  | .resolved =>
    let r := loadDataRun s0 reload
    ({ r.1 with isLoading := false },
      (s0, call) :: (s0, Effect.toast "成功" (.str "並び順を保存しました。") "success") :: r.2)
  | .rejected e =>
    ({ s0 with isLoading := false },
      [(s0, call), (s0, Effect.toast "エラー：" (normalizeError e) "error")])

/-- The method `handleSave`: the final state and the effects in order. -/
def handleSave (s : State) (persist : PersistOutcome) (reload : LoadEnv) :
    State × List Effect :=
  ((handleSaveRun s persist reload).1, (handleSaveRun s persist reload).2.map Prod.snd)

/-! ## Runs of the component -/

/-- The operations a run is made of, each with the data it receives. -/
inductive Op where
  | load (env : LoadEnv) : Op
  | resizeStart (index clientX : Int) : Op
  | mouseMove (clientX : Int) : Op
  | mouseUp : Op
  | dragStart (index : Int) : Op
  | drop (targetIndex : Int) : Op
  | save (persist : PersistOutcome) (reload : LoadEnv) : Op

/-- The state after one operation. -/
def step (s : State) : Op → State
  | .load env => (loadData s env).1
  | .resizeStart index clientX => handleResizeStart s index clientX
  | .mouseMove clientX => handleMouseMove s clientX
  | .mouseUp => handleMouseUp s
  | .dragStart index => handleDragStart s index
  | .drop targetIndex => handleDrop s targetIndex
  | .save persist reload => (handleSave s persist reload).1

/-- The state after a sequence of operations. -/
def run (s : State) (ops : List Op) : State := ops.foldl step s

/-- States the component can be in: the initial state for some inputs, followed
by any sequence of operations. -/
inductive Reachable : State → Prop where
  | init (recordId childObjectApiName parentFieldApiName sortFieldApiName
      fieldsCsv : Option String) :
      Reachable (initialState recordId childObjectApiName parentFieldApiName
        sortFieldApiName fieldsCsv)
  | step {s : State} (op : Op) : Reachable s → Reachable (step s op)

/-! ## Specification-side definitions -/

/-- The list with the element at `s` removed and put back at position `t` of the
shortened list (the list itself when `s` is not an index). -/
def removeThenInsert {α : Type} (xs : List α) (s t : Nat) : List α :=
  match xs.get? s with
  | none => xs
  | some x => (xs.eraseIdx s).insertIdx t x

/-- All five inputs of the component are present (non-empty). -/
def configComplete (s : State) : Bool :=
  truthyStr s.recordId && truthyStr s.childObjectApiName && truthyStr s.parentFieldApiName &&
    truthyStr s.sortFieldApiName && truthyStr s.fieldsCsv

/-- The five inputs of the component. -/
inductive ConfigInput where
  | recordId : ConfigInput
  | childObjectApiName : ConfigInput
  | parentFieldApiName : ConfigInput
  | sortFieldApiName : ConfigInput
  | fieldsCsv : ConfigInput
  deriving DecidableEq

/-- The inputs in the order `loadData` checks them. -/
def configInputs : List ConfigInput :=
  [.recordId, .childObjectApiName, .parentFieldApiName, .sortFieldApiName, .fieldsCsv]

/-- The value an input has in a state. -/
def ConfigInput.value (s : State) : ConfigInput → Option String
  | .recordId => s.recordId
  | .childObjectApiName => s.childObjectApiName
  | .parentFieldApiName => s.parentFieldApiName
  | .sortFieldApiName => s.sortFieldApiName
  | .fieldsCsv => s.fieldsCsv

/-- The text of the error `loadData` raises when an input is missing. -/
def ConfigInput.errorText : ConfigInput → String
  | .recordId => "親レコードIDの取得に失敗しました。"
  | .childObjectApiName => "childObjectApiName が未指定です。"
  | .parentFieldApiName => "parentFieldApiName が未指定です。"
  | .sortFieldApiName => "sortFieldApiName が未指定です。"
  | .fieldsCsv => "fieldsCsv が未指定です。"

/-- The first input, in the order checked, that is missing or empty. -/
def firstMissing (s : State) : Option ConfigInput :=
  configInputs.find? fun c => !truthyStr (c.value s)

/-- Rows whose `displayOrder` is their 1-based position. -/
def Contiguous (rows : List Row) : Prop :=
  ∀ i row, rows[i]? = some row → row.displayOrder = i + 1

/-- The load fails before `columns` is assigned: an input is missing, the fetch
is rejected, or the resolved result or its `fieldLabels` is missing. -/
def failsBeforeColumns (s : State) (env : LoadEnv) : Bool :=
  !configComplete s ||
    match env.fetch with
    | .rejected _ => true
    | .resolved none => true
    | .resolved (some result) => result.fieldLabels.isNone

/-- Columns whose width is at least the floor. -/
def WidthsOk (cols : List Column) : Prop :=
  ∀ col ∈ cols, MIN_COL_WIDTH ≤ col.width

/-- The ids of the records a fetch resolves with (none when it does not resolve
with a records list). -/
def fetchedIds (env : LoadEnv) : List JVal :=
  match env.fetch with
  | .resolved (some result) => (result.records.getD []).map fun rec => rec.optGet "Id"
  | _ => []

/-- The ids returned by the most recent successful load, after one more operation:
a successful load (on its own or as the reload of a save) replaces them. -/
def idsAfter (s : State) (ids : List JVal) : Op → List JVal
  | .load env => if (loadError s env).isNone then fetchedIds env else ids
  | .save .resolved reload =>
    if (loadError { s with isLoading := true } reload).isNone then fetchedIds reload else ids
  | _ => ids

/-- The ids returned by the most recent successful load, after a sequence of operations. -/
def loadedIds (s : State) (ids : List JVal) : List Op → List JVal
  | [] => ids
  | op :: ops => loadedIds (step s op) (idsAfter s ids op) ops

/-- An integer is an index of a row of the list. -/
def validIndex (rows : List Row) (i : Int) : Bool :=
  decide (0 ≤ i) && decide (i < (rows.length : Int))

/-- The index a drag start or a drop carries is a row index at the time of the event. -/
def indexValidAtEvent (s : State) : Op → Bool
  | .dragStart index => validIndex s.lineItems index
  | .drop targetIndex => validIndex s.lineItems targetIndex
  | _ => true

/-- The recorded source index, if any, is a row index at the time of a drop. -/
def sourceValidAtDrop (s : State) : Op → Bool
  | .drop _ =>
    match s.draggedIndex with
    | none => true
    | some dragged => validIndex s.lineItems dragged
  | _ => true

/-- A condition holds for every operation of a sequence, in the state it meets. -/
def allAlong (p : State → Op → Bool) (s : State) : List Op → Bool
  | [] => true
  | op :: ops => p s op && allAlong p (step s op) ops

/-! ## Example inputs -/

/-- A state with every input set and no rows or columns yet. -/
def readyState : State :=
  initialState (some "a0B") (some "Item__c") (some "Parent__c") (some "Sort__c") (some "Name")

/-- A fetch that resolves with a field-label mapping but without `records`. -/
def envNoRecords : LoadEnv :=
  { fetch := .resolved (some { objectLabel := .str "Item", fieldLabels := some [("Name", .str "Name")],
                               records := none })
    typeError := mkError "TypeError" }

/-- Three records as the fetch returns them, with fields `Name` and `Amount`. -/
def threeRecords : List JVal :=
  [.obj [("Id", .str "001"), ("Name", .str "Bolt"), ("Amount", .num 3)],
   .obj [("Id", .str "002"), ("Name", .str "Nut"), ("Amount", .num 5)],
   .obj [("Id", .str "003"), ("Name", .str "Washer"), ("Amount", .num 8)]]

/-- A fetch that resolves with three records and the fields `[Name, Amount]`. -/
def envThreeRecords : LoadEnv :=
  { fetch := .resolved (some { objectLabel := .str "Item",
                               fieldLabels := some [("Name", .str "Name"), ("Amount", .str "Amount")],
                               records := some threeRecords })
    typeError := mkError "TypeError" }

/-- A gateway error whose payload message is "field-level security". -/
def payloadError : JVal :=
  .obj [("body", .obj [("message", .str "field-level security")]), ("message", .str "failed")]

/-- A fetch that is rejected with `payloadError`. -/
def envRejected : LoadEnv :=
  { fetch := .rejected payloadError, typeError := mkError "TypeError" }

/-- A row with the given identity and position and no cells. -/
def plainRow (id : String) (displayOrder : Nat) : Row :=
  { id := .str id, itemSortNumber := .undefined, displayOrder := displayOrder, cells := some [] }

/-- The rows `[A, B, C, D]` with the row at index 2 being dragged. -/
def dragExample : State :=
  { readyState with
    lineItems := [plainRow "A" 1, plainRow "B" 2, plainRow "C" 3, plainRow "D" 4],
    draggedIndex := some 2 }

/-- A fetch that resolves with a single record. -/
def envOneRecord : LoadEnv :=
  { fetch := .resolved (some { objectLabel := .str "Item",
                               fieldLabels := some [("Name", .str "Name")],
                               records := some [.obj [("Id", .str "009"), ("Name", .str "Pin")]] })
    typeError := mkError "TypeError" }

/-- A record with a related record under `Account`. -/
def relatedRecordProps : List (String × JVal) :=
  [("Id", .str "001"), ("Name", .str "Bolt"), ("Account", .obj [("Name", .str "Acme")])]

end LineItemSorter

/-! # dynamicSelectList: the required-value check -/

namespace DynamicSelectList

/-- The properties of the component that `validate` reads.  `selectedValue` and
`selectedValues` are `none` when they are `null` or `undefined`. -/
structure Component where
  isRequired : Bool
  isMultiSelect : Bool
  selectedValue : Option String
  selectedValues : Option (List String)

/-- The object `validate` returns: `{ isValid, errorMessage }`, `errorMessage` being
`none` when the property is absent. -/
structure ValidationResult where
  isValid : Bool
  errorMessage : Option String

/-- The expression `!this.selectedValue`. -/
def notValue : Option String → Bool
  | none => true
  | some v => v == ""

/-- The expression `!this.selectedValues || this.selectedValues.length === 0`. -/
def noValues : Option (List String) → Bool
  | none => true
  | some vs => vs.length == 0

/-- The method `validate`. -/
def validate (c : Component) : ValidationResult :=
  if c.isRequired then
    let isValueEmpty := if c.isMultiSelect then noValues c.selectedValues
      else notValue c.selectedValue
    if isValueEmpty then
      { isValid := false, errorMessage := some "この項目は必須です。値を入力してください。" }
    else { isValid := true, errorMessage := none }
  else { isValid := true, errorMessage := none }

/-- The selection of the current mode is empty: in multi-select mode `selectedValues`
is missing or has length 0, in single-select mode `selectedValue` is missing or empty. -/
def SelectionEmpty (c : Component) : Prop :=
  if c.isMultiSelect = true then
    c.selectedValues = none ∨ ∃ vs, c.selectedValues = some vs ∧ vs.length = 0
  else c.selectedValue = none ∨ c.selectedValue = some ""

end DynamicSelectList

namespace LineItemSorter

/-! ## Lemmas and theorems -/


theorem mapIdxFrom_length {α β : Type} (f : α → Nat → β) (k : Nat) (xs : List α) :
    (mapIdxFrom f k xs).length = xs.length := by
  induction xs generalizing k with
  | nil => rfl
  | cons x xs ih => simp [mapIdxFrom, ih]

theorem mapIdxFrom_getElem? {α β : Type} (f : α → Nat → β) (k : Nat) (xs : List α) (i : Nat) :
    (mapIdxFrom f k xs)[i]? = (xs[i]?).map (fun x => f x (k + i)) := by
  induction xs generalizing k i with
  | nil => simp [mapIdxFrom]
  | cons x xs ih =>
    cases i with
    | zero => simp [mapIdxFrom]
    | succ i =>
      simp only [mapIdxFrom, List.getElem?_cons_succ, ih]
      congr 1
      funext x
      congr 1
      omega

theorem spliceStart_of_le (len i : Nat) (h : i ≤ len) : spliceStart len (i : Int) = i := by
  unfold spliceStart
  have : ¬ ((i : Int) < 0) := by omega
  simp [this, h]

/-- Claim C1: for a row list of length n and indices s, t below n with s different from t,
`handleDrop` with recorded source index s and target index t yields a list of the same
length which, position by position, is the list obtained by removing the element at s and
inserting it at position t of the shortened list, each row carrying its new 1-based
position as `displayOrder` and every other field unchanged. -/
theorem handleDrop_moves_row (st : State) (s t : Nat)
    (hs : s < st.lineItems.length) (ht : t < st.lineItems.length) (hne : s ≠ t)
    (hd : st.draggedIndex = some (s : Int)) :
    (handleDrop st (t : Int)).lineItems.length = st.lineItems.length ∧
    ∀ i : Nat, (handleDrop st (t : Int)).lineItems[i]? =
      ((removeThenInsert st.lineItems s t)[i]?).map
        (fun row => { row with displayOrder := i + 1 }) := by
  have hne' : ¬ ((t : Int) = (s : Int)) := by
    intro h
    exact hne (Int.ofNat_inj.mp h).symm
  have hsrc : spliceStart st.lineItems.length (s : Int) = s := spliceStart_of_le _ _ (le_of_lt hs)
  have hlen : (st.lineItems.eraseIdx s).length = st.lineItems.length - 1 :=
    List.length_eraseIdx_of_lt hs
  have hdst : spliceStart (st.lineItems.eraseIdx s).length (t : Int) = t :=
    spliceStart_of_le _ _ (by omega)
  obtain ⟨x, hx⟩ : ∃ x, st.lineItems.get? s = some x := ⟨_, List.get?_eq_get hs⟩
  have hres : (handleDrop st (t : Int)).lineItems =
      mapIdxFrom (fun item idx => { item with displayOrder := idx + 1 }) 0
        ((st.lineItems.eraseIdx s).insertIdx t x) := by
    simp only [handleDrop, hd, if_neg hne', hsrc, hdst, hx, Option.getD_some]
  have hspec : removeThenInsert st.lineItems s t = (st.lineItems.eraseIdx s).insertIdx t x := by
    simp only [removeThenInsert, hx]
  refine ⟨?_, ?_⟩
  · rw [hres, mapIdxFrom_length, List.length_insertIdx _ _ (by omega), hlen]
    omega
  · intro i
    rw [hres, hspec, mapIdxFrom_getElem?]
    simp

theorem buildRows_spec (s : State) (k : Nat) (recs : List JVal) (rows : List Row)
    (h : buildRows s k recs = some rows) :
    rows.length = recs.length ∧
    ∀ i, (rows[i]?).map (fun row => (row.id, row.displayOrder)) =
      (recs[i]?).map (fun rec => (rec.optGet "Id", k + i + 1)) := by
  induction recs generalizing k rows with
  | nil =>
    simp only [buildRows, Option.some.injEq] at h
    subst h
    simp
  | cons rec rest ih =>
    simp only [buildRows] at h
    cases hrow : buildRow s rec k with
    | none => simp [hrow] at h
    | some row =>
      cases hrest : buildRows s (k + 1) rest with
      | none => simp [hrow, hrest] at h
      | some rows1 =>
        simp only [hrow, hrest, Option.some.injEq] at h
        subst h
        obtain ⟨hl, hg⟩ := ih (k + 1) rows1 hrest
        refine ⟨by simp [hl], ?_⟩
        intro i
        cases i with
        | zero =>
          unfold buildRow at hrow
          split at hrow
          · simp at hrow
          · simp only [Option.some.injEq] at hrow
            subst hrow
            simp
        | succ i =>
          simp only [List.getElem?_cons_succ, hg i]
          congr 1
          funext r
          congr 1
          omega

/-- Every way the `try` block of `loadData` can end. -/
theorem loadTry_cases (s : State) (env : LoadEnv) :
    (configComplete s = false ∧ (loadTry s env).1 = s ∧ (∃ e, (loadTry s env).2.1 = some e) ∧
        (loadTry s env).2.2 = []) ∨
    (configComplete s = true ∧
      (loadTry s env).2.2 = [(s, Effect.getRecords s.childObjectApiName s.recordId
        s.parentFieldApiName s.sortFieldApiName s.fieldsCsv)] ∧
      ((∃ e, env.fetch = .rejected e ∧ loadTry s env = (s, some e, (loadTry s env).2.2)) ∨
       (env.fetch = .resolved none ∧ loadTry s env = (s, some env.typeError, (loadTry s env).2.2)) ∨
       (∃ result, env.fetch = .resolved (some result) ∧ result.fieldLabels = none ∧
          loadTry s env = ({ s with objectLabel := result.objectLabel }, some env.typeError,
            (loadTry s env).2.2)) ∨
       (∃ result fieldLabels, env.fetch = .resolved (some result) ∧
          result.fieldLabels = some fieldLabels ∧
          (result.records = none ∨ ∃ records, result.records = some records ∧
            buildRows { s with objectLabel := result.objectLabel,
                               columns := buildColumns fieldLabels } 0 records = none) ∧
          loadTry s env = ({ s with objectLabel := result.objectLabel,
                                    columns := buildColumns fieldLabels }, some env.typeError,
            (loadTry s env).2.2)) ∨
       (∃ result fieldLabels records rows, env.fetch = .resolved (some result) ∧
          result.fieldLabels = some fieldLabels ∧ result.records = some records ∧
          buildRows { s with objectLabel := result.objectLabel,
                             columns := buildColumns fieldLabels } 0 records = some rows ∧
          loadTry s env = ({ s with objectLabel := result.objectLabel,
                                    columns := buildColumns fieldLabels, lineItems := rows }, none,
            (loadTry s env).2.2)))) := by
  by_cases h1 : truthyStr s.recordId = true
  swap
  · left; simp [configComplete, loadTry, h1]
  by_cases h2 : truthyStr s.childObjectApiName = true
  swap
  · left; simp [configComplete, loadTry, h1, h2]
  by_cases h3 : truthyStr s.parentFieldApiName = true
  swap
  · left; simp [configComplete, loadTry, h1, h2, h3]
  by_cases h4 : truthyStr s.sortFieldApiName = true
  swap
  · left; simp [configComplete, loadTry, h1, h2, h3, h4]
  by_cases h5 : truthyStr s.fieldsCsv = true
  swap
  · left; simp [configComplete, loadTry, h1, h2, h3, h4, h5]
  right
  refine ⟨by simp [configComplete, h1, h2, h3, h4, h5], ?_⟩
  cases hf : env.fetch with
  | rejected e => simp [loadTry, h1, h2, h3, h4, h5, hf]
  | resolved r =>
    cases r with
    | none => simp [loadTry, h1, h2, h3, h4, h5, hf]
    | some result =>
      cases hfl : result.fieldLabels with
      | none => simp [loadTry, h1, h2, h3, h4, h5, hf, hfl]
      | some fl =>
        cases hrecs : result.records with
        | none => simp [loadTry, h1, h2, h3, h4, h5, hf, hfl, hrecs]
        | some recs =>
          cases hrows : buildRows { s with objectLabel := result.objectLabel,
                                           columns := buildColumns fl } 0 recs with
          | none => simp [loadTry, h1, h2, h3, h4, h5, hf, hfl, hrecs, hrows]
          | some rows => simp [loadTry, h1, h2, h3, h4, h5, hf, hfl, hrecs, hrows]

theorem loadTry_success (s : State) (env : LoadEnv) (h : (loadTry s env).2.1 = none) :
    ∃ result fieldLabels records rows,
      env.fetch = .resolved (some result) ∧ result.fieldLabels = some fieldLabels ∧
      result.records = some records ∧
      buildRows { s with objectLabel := result.objectLabel, columns := buildColumns fieldLabels }
        0 records = some rows ∧
      (loadTry s env).1 = { s with objectLabel := result.objectLabel,
                                   columns := buildColumns fieldLabels, lineItems := rows } := by
  rcases loadTry_cases s env with ⟨-, -, ⟨e, he⟩, -⟩ | ⟨-, -, hc⟩
  · rw [he] at h; cases h
  · rcases hc with ⟨e, -, he⟩ | ⟨-, he⟩ | ⟨r, -, -, he⟩ | ⟨r, fl, -, -, -, he⟩ |
      ⟨r, fl, recs, rows, hf, hfl, hrecs, hrows, he⟩
    · rw [he] at h; cases h
    · rw [he] at h; cases h
    · rw [he] at h; cases h
    · rw [he] at h; cases h
    · exact ⟨r, fl, recs, rows, hf, hfl, hrecs, hrows, by rw [he]⟩

theorem loadTry_failure_lineItems (s : State) (env : LoadEnv) (e : JVal)
    (h : (loadTry s env).2.1 = some e) : (loadTry s env).1.lineItems = s.lineItems := by
  rcases loadTry_cases s env with ⟨-, hs, -, -⟩ | ⟨-, -, hc⟩
  · rw [hs]
  · rcases hc with ⟨e, -, he⟩ | ⟨-, he⟩ | ⟨r, -, -, he⟩ | ⟨r, fl, -, -, -, he⟩ |
      ⟨r, fl, recs, rows, hf, hfl, hrecs, hrows, he⟩
    · rw [he]
    · rw [he]
    · rw [he]
    · rw [he]
    · rw [he] at h; cases h

theorem loadTry_failure_columns (s : State) (env : LoadEnv)
    (h : failsBeforeColumns s env = true) : (loadTry s env).1.columns = s.columns := by
  rcases loadTry_cases s env with ⟨-, hs, -, -⟩ | ⟨hcfg, -, hc⟩
  · rw [hs]
  · rcases hc with ⟨e, -, he⟩ | ⟨-, he⟩ | ⟨r, -, -, he⟩ | ⟨r, fl, hf, hfl, -, he⟩ |
      ⟨r, fl, recs, rows, hf, hfl, hrecs, hrows, he⟩
    · rw [he]
    · rw [he]
    · rw [he]
    · simp [failsBeforeColumns, hcfg, hf, hfl] at h
    · simp [failsBeforeColumns, hcfg, hf, hfl] at h

theorem loadTry_effects (s : State) (env : LoadEnv) :
    (loadTry s env).2.2 = [] ∨
    (loadTry s env).2.2 = [(s, Effect.getRecords s.childObjectApiName s.recordId
        s.parentFieldApiName s.sortFieldApiName s.fieldsCsv)] := by
  rcases loadTry_cases s env with ⟨-, -, -, h⟩ | ⟨-, h, -⟩
  · exact Or.inl h
  · exact Or.inr h

theorem loadData_fst (s : State) (env : LoadEnv) :
    (loadData s env).1 =
      { (match (loadTry (loadBegin s) env).2.1 with
          | some e => { (loadTry (loadBegin s) env).1 with errorMessage := normalizeError e }
          | none => (loadTry (loadBegin s) env).1) with isLoading := false } := rfl

theorem loadData_snd (s : State) (env : LoadEnv) :
    (loadData s env).2 =
      Effect.loadDataCalled :: (loadTry (loadBegin s) env).2.2.map Prod.snd := rfl

theorem loadDataRun_snd (s : State) (env : LoadEnv) :
    (loadDataRun s env).2 = (s, Effect.loadDataCalled) :: (loadTry (loadBegin s) env).2.2 := rfl

theorem handleSave_rejected (s : State) (e : JVal) (reload : LoadEnv) :
    handleSave s (.rejected e) reload =
      ({ s with isLoading := false },
        [Effect.updateSortOrder (s.lineItems.map fun row => row.id)
            s.sortFieldApiName s.childObjectApiName,
          Effect.toast "エラー：" (normalizeError e) "error"]) := rfl

theorem handleSave_resolved (s : State) (reload : LoadEnv) :
    handleSave s .resolved reload =
      ({ (loadData { s with isLoading := true } reload).1 with isLoading := false },
        Effect.updateSortOrder (s.lineItems.map fun row => row.id)
            s.sortFieldApiName s.childObjectApiName ::
          Effect.toast "成功" (.str "並び順を保存しました。") "success" ::
          (loadData { s with isLoading := true } reload).2) := rfl

theorem loadData_lineItems (s : State) (env : LoadEnv) :
    (loadData s env).1.lineItems = (loadTry (loadBegin s) env).1.lineItems := by
  rw [loadData_fst]
  cases (loadTry (loadBegin s) env).2.1 <;> rfl

theorem loadData_columns (s : State) (env : LoadEnv) :
    (loadData s env).1.columns = (loadTry (loadBegin s) env).1.columns := by
  rw [loadData_fst]
  cases (loadTry (loadBegin s) env).2.1 <;> rfl

theorem buildRows_contiguous (s : State) (recs : List JVal) (rows : List Row)
    (h : buildRows s 0 recs = some rows) : Contiguous rows := by
  intro i row hrow
  have hg := (buildRows_spec s 0 recs rows h).2 i
  rw [hrow] at hg
  cases hrec : recs[i]? with
  | none => simp [hrec] at hg
  | some rec =>
    simp only [hrec, Option.map_some', Option.some.injEq, Prod.mk.injEq] at hg
    omega

theorem loadData_contiguous (s : State) (env : LoadEnv) (h : Contiguous s.lineItems) :
    Contiguous (loadData s env).1.lineItems := by
  rw [loadData_lineItems]
  cases herr : (loadTry (loadBegin s) env).2.1 with
  | some e =>
    rw [loadTry_failure_lineItems _ _ e herr]
    exact h
  | none =>
    obtain ⟨result, fl, recs, rows, -, -, -, hrows, hst⟩ := loadTry_success _ _ herr
    rw [hst]
    exact buildRows_contiguous _ _ _ hrows

theorem mapIdxFrom_contiguous (rows : List Row) :
    Contiguous (mapIdxFrom (fun item idx => { item with displayOrder := idx + 1 }) 0 rows) := by
  intro i row hrow
  rw [mapIdxFrom_getElem?] at hrow
  cases hx : rows[i]? with
  | none => simp [hx] at hrow
  | some x =>
    simp only [hx, Option.map_some', Option.some.injEq] at hrow
    subst hrow
    simp

theorem handleDrop_contiguous (s : State) (t : Int) (h : Contiguous s.lineItems) :
    Contiguous (handleDrop s t).lineItems := by
  unfold handleDrop
  split
  · exact h
  · split
    · exact h
    · exact mapIdxFrom_contiguous _

theorem handleSave_contiguous (s : State) (p : PersistOutcome) (env : LoadEnv)
    (h : Contiguous s.lineItems) : Contiguous (handleSave s p env).1.lineItems := by
  cases p with
  | rejected e => exact h
  | resolved => exact loadData_contiguous { s with isLoading := true } env h

theorem handleMouseMove_lineItems (s : State) (x : Int) :
    (handleMouseMove s x).lineItems = s.lineItems := by
  unfold handleMouseMove
  split <;> rfl

theorem step_contiguous (s : State) (op : Op) (h : Contiguous s.lineItems) :
    Contiguous (step s op).lineItems := by
  cases op with
  | load env => exact loadData_contiguous s env h
  | resizeStart index clientX => exact h
  | mouseMove clientX =>
    show Contiguous (handleMouseMove s clientX).lineItems
    rw [handleMouseMove_lineItems]
    exact h
  | mouseUp => exact h
  | dragStart index => exact h
  | drop t => exact handleDrop_contiguous s t h
  | save p env => exact handleSave_contiguous s p env h

theorem reachable_run {s : State} (h : Reachable s) (ops : List Op) : Reachable (run s ops) := by
  induction ops generalizing s with
  | nil => exact h
  | cons op ops ih => exact ih (Reachable.step op h)

/-- Claim C2: after a successful load the fetch had resolved with a records list, and the
rows have the length of that list, the `id` of row i is the `Id` of record i, and the
`displayOrder` of row i is i + 1. -/
theorem loadData_rows_follow_records (s : State) (env : LoadEnv)
    (h : loadError s env = none) :
    ∃ result records, env.fetch = .resolved (some result) ∧ result.records = some records ∧
      (loadData s env).1.lineItems.length = records.length ∧
      ∀ i, ((loadData s env).1.lineItems[i]?).map (fun row => (row.id, row.displayOrder)) =
        (records[i]?).map (fun rec => (rec.optGet "Id", i + 1)) := by
  obtain ⟨result, fl, recs, rows, hf, -, hrecs, hrows, hst⟩ := loadTry_success _ _ h
  refine ⟨result, recs, hf, hrecs, ?_, ?_⟩
  · rw [loadData_lineItems, hst]
    exact (buildRows_spec _ 0 recs rows hrows).1
  · intro i
    rw [loadData_lineItems, hst]
    simpa using (buildRows_spec _ 0 recs rows hrows).2 i

/-- Claim C3: in every state reachable from the initial state by loads (successful or
failed), resize start, move and end, drag start, drop and save, the row at index i has
`displayOrder` i + 1. -/
theorem displayOrder_contiguous (s : State) (h : Reachable s) :
    ∀ i row, s.lineItems[i]? = some row → row.displayOrder = i + 1 := by
  induction h with
  | init => intro i row hrow; simp [initialState] at hrow
  | step op _ ih => exact step_contiguous _ op ih

theorem loadData_effects_filter (s : State) (env : LoadEnv) :
    (loadData s env).2.filter Effect.isUpdateSortOrder = [] ∧
    (loadData s env).2.filter Effect.isToast = [] ∧
    (loadData s env).2.filter Effect.isLoadDataCalled = [Effect.loadDataCalled] := by
  rw [loadData_snd]
  rcases loadTry_effects (loadBegin s) env with h | h <;> rw [h] <;>
    simp [Effect.isUpdateSortOrder, Effect.isToast, Effect.isLoadDataCalled]

/-- Claim C4: whatever the outcome of the persist call and of the reload, `handleSave`
issues exactly one `updateSortOrder` call, and its arguments are the ids of the rows in
their current order, `sortFieldApiName` and `childObjectApiName`. -/
theorem handleSave_persist_call (s : State) (persist : PersistOutcome) (reload : LoadEnv) :
    (handleSave s persist reload).2.filter Effect.isUpdateSortOrder =
      [Effect.updateSortOrder (s.lineItems.map fun row => row.id)
        s.sortFieldApiName s.childObjectApiName] := by
  cases persist with
  | rejected e => simp [handleSave_rejected, Effect.isUpdateSortOrder]
  | resolved =>
    have h := (loadData_effects_filter { s with isLoading := true } reload).1
    simp [handleSave_resolved, Effect.isUpdateSortOrder, h]

/-- Claim C5: when the persist call is rejected with `e`, `handleSave` shows exactly one toast,
of variant error, whose message is `normalizeError e`; it neither invokes `loadData` nor
fetches, and the rows are as before.  For an error whose payload message is
"field-level security" the toast message is exactly that string. -/
theorem handleSave_failure (s : State) (e : JVal) (reload : LoadEnv)
    (bodyRest rest : List (String × JVal)) :
    (handleSave s (.rejected e) reload).2.filter Effect.isToast =
      [Effect.toast "エラー：" (normalizeError e) "error"] ∧
    (handleSave s (.rejected e) reload).2.filter Effect.isLoadDataCalled = [] ∧
    (handleSave s (.rejected e) reload).2.filter Effect.isGetRecords = [] ∧
    (handleSave s (.rejected e) reload).1.lineItems = s.lineItems ∧
    (handleSave s (.rejected (.obj (("body",
        .obj (("message", .str "field-level security") :: bodyRest)) :: rest))) reload).2.filter
        Effect.isToast =
      [Effect.toast "エラー：" (.str "field-level security") "error"] := by
  refine ⟨?_, ?_, ?_, ?_, ?_⟩
  · simp [handleSave_rejected, Effect.isToast]
  · simp [handleSave_rejected, Effect.isLoadDataCalled]
  · simp [handleSave_rejected, Effect.isGetRecords]
  · simp [handleSave_rejected]
  · simp [handleSave_rejected, Effect.isToast, normalizeError, JVal.optGet, lookupProp, JVal.or,
      JVal.truthy]

/-- Claim C6: when the persist call resolves, `handleSave` shows exactly one toast, of variant
success, and invokes `loadData` exactly once, after the toast, whatever that load meets;
the final state is that of the load with `isLoading` false. -/
theorem handleSave_success (s : State) (reload : LoadEnv) :
    (handleSave s .resolved reload).2.filter Effect.isToast =
      [Effect.toast "成功" (.str "並び順を保存しました。") "success"] ∧
    (handleSave s .resolved reload).2.filter Effect.isLoadDataCalled = [Effect.loadDataCalled] ∧
    (∃ tail, (handleSave s .resolved reload).2 =
      Effect.updateSortOrder (s.lineItems.map fun row => row.id)
          s.sortFieldApiName s.childObjectApiName ::
        Effect.toast "成功" (.str "並び順を保存しました。") "success" ::
        Effect.loadDataCalled :: tail) ∧
    (handleSave s .resolved reload).1 =
      { (loadData { s with isLoading := true } reload).1 with isLoading := false } := by
  obtain ⟨-, h2, h3⟩ := loadData_effects_filter { s with isLoading := true } reload
  refine ⟨?_, ?_, ?_, rfl⟩
  · simp [handleSave_resolved, Effect.isToast, h2]
  · simp [handleSave_resolved, Effect.isLoadDataCalled, h3]
  · exact ⟨(loadTry (loadBegin { s with isLoading := true }) reload).2.2.map Prod.snd, rfl⟩

theorem normalizeError_mkError (msg : String) (h : msg ≠ "") :
    normalizeError (mkError msg) = .str msg := by
  have h1 : (mkError msg).optGet "body" = .undefined := rfl
  have h2 : (mkError msg).optGet "message" = .str msg := rfl
  unfold normalizeError
  rw [h1, h2]
  simp [JVal.optGet, JVal.or, JVal.truthy, h]

theorem errorText_ne_empty (c : ConfigInput) : c.errorText ≠ "" := by
  cases c <;> simp [ConfigInput.errorText]

/-- The `try` block of `loadData` when an input is missing. -/
theorem loadTry_missing (s : State) (env : LoadEnv) (m : ConfigInput)
    (h : firstMissing s = some m) :
    loadTry s env = (s, some (mkError m.errorText), []) := by
  unfold firstMissing configInputs at h
  simp only [List.find?] at h
  unfold loadTry
  cases h1 : truthyStr s.recordId <;> cases h2 : truthyStr s.childObjectApiName <;>
    cases h3 : truthyStr s.parentFieldApiName <;> cases h4 : truthyStr s.sortFieldApiName <;>
    cases h5 : truthyStr s.fieldsCsv <;>
    simp [ConfigInput.value, h1, h2, h3, h4, h5] at h <;>
    subst h <;> simp [ConfigInput.errorText]

theorem firstMissing_of_missing (s : State) (c : ConfigInput)
    (hc : truthyStr (c.value s) = false) : ∃ m, firstMissing s = some m := by
  cases hm : firstMissing s with
  | some m => exact ⟨m, rfl⟩
  | none =>
    unfold firstMissing at hm
    rw [List.find?_eq_none] at hm
    have := hm c (by cases c <;> simp [configInputs])
    simp [hc] at this

/-- Claim C7: when one of the five inputs is missing or empty, `loadData` makes no
`getRecords` call and leaves in `errorMessage` the non-empty error text of the first
missing input in the order checked. -/
theorem loadData_missing_config (s : State) (env : LoadEnv) (c : ConfigInput)
    (hc : truthyStr (c.value s) = false) :
    (loadData s env).2.filter Effect.isGetRecords = [] ∧
    ∃ m, firstMissing s = some m ∧
      (loadData s env).1.errorMessage = .str m.errorText ∧ m.errorText ≠ "" := by
  have hc' : truthyStr (c.value (loadBegin s)) = false := by
    cases c <;> exact hc
  obtain ⟨m, hm⟩ := firstMissing_of_missing (loadBegin s) c hc'
  have hm' : firstMissing s = some m := hm
  have ht := loadTry_missing (loadBegin s) env m hm
  refine ⟨?_, m, hm', ?_, errorText_ne_empty m⟩
  · rw [loadData_snd, ht]
    simp [Effect.isLoadDataCalled, Effect.isGetRecords]
  · rw [loadData_fst, ht]
    simp [normalizeError_mkError _ (errorText_ne_empty m)]

/-- Claim C8, amended: when a load ends on its failure path with error `e`, the rows are
those before the load and `errorMessage` is `normalizeError e`; the columns are those
before the load when the failure is a missing input, a rejected fetch, or a resolved
result that is missing or has no `fieldLabels`. -/
theorem loadData_failure_state (s : State) (env : LoadEnv) (e : JVal)
    (h : loadError s env = some e) :
    (loadData s env).1.lineItems = s.lineItems ∧
    (loadData s env).1.errorMessage = normalizeError e ∧
    (failsBeforeColumns s env = true → (loadData s env).1.columns = s.columns) := by
  unfold loadError at h
  refine ⟨?_, ?_, ?_⟩
  · rw [loadData_lineItems, loadTry_failure_lineItems _ _ e h]
    rfl
  · rw [loadData_fst, h]
  · intro hb
    have hb' : failsBeforeColumns (loadBegin s) env = true := hb
    rw [loadData_columns, loadTry_failure_columns _ _ hb']
    rfl

/-- Claim C8, counterexample: a fetch that resolves with a field-label mapping but without
`records` makes the load fail with a `TypeError` after `columns` has been replaced: the
state had no column before the load and has one after it. -/
theorem loadData_failure_changes_columns :
    loadError readyState envNoRecords = some (mkError "TypeError") ∧
    (loadData readyState envNoRecords).1.columns.length = 1 ∧
    readyState.columns.length = 0 ∧
    (loadData readyState envNoRecords).1.columns ≠ readyState.columns := by
  refine ⟨?_, ?_, ?_, ?_⟩
  · rfl
  · rfl
  · rfl
  · intro h
    have := congrArg List.length h
    exact absurd this (by decide)

theorem mem_mapIdxFrom {α β : Type} (f : α → Nat → β) (k : Nat) (xs : List α) (y : β)
    (h : y ∈ mapIdxFrom f k xs) : ∃ x ∈ xs, ∃ i, y = f x i := by
  induction xs generalizing k with
  | nil => simp [mapIdxFrom] at h
  | cons x xs ih =>
    simp only [mapIdxFrom, List.mem_cons] at h
    rcases h with h | h
    · exact ⟨x, by simp, k, h⟩
    · obtain ⟨x', hx', i, hi⟩ := ih (k + 1) h
      exact ⟨x', by simp [hx'], i, hi⟩

theorem buildColumns_widthsOk (fl : List (String × JVal)) : WidthsOk (buildColumns fl) := by
  intro col hcol
  simp only [buildColumns, List.mem_map] at hcol
  obtain ⟨k, -, rfl⟩ := hcol
  simp [MIN_COL_WIDTH, DEFAULT_COL_WIDTH]

theorem loadTry_columns (s : State) (env : LoadEnv) :
    (loadTry s env).1.columns = s.columns ∨
      ∃ fl, (loadTry s env).1.columns = buildColumns fl := by
  rcases loadTry_cases s env with ⟨-, hs, -, -⟩ | ⟨-, -, hc⟩
  · rw [hs]; exact Or.inl rfl
  · rcases hc with ⟨e, -, he⟩ | ⟨-, he⟩ | ⟨r, -, -, he⟩ | ⟨r, fl, -, -, -, he⟩ |
      ⟨r, fl, recs, rows, -, -, -, -, he⟩
    · rw [he]; exact Or.inl rfl
    · rw [he]; exact Or.inl rfl
    · rw [he]; exact Or.inl rfl
    · rw [he]; exact Or.inr ⟨fl, rfl⟩
    · rw [he]; exact Or.inr ⟨fl, rfl⟩

theorem loadData_widthsOk (s : State) (env : LoadEnv) (h : WidthsOk s.columns) :
    WidthsOk (loadData s env).1.columns := by
  rw [loadData_columns]
  rcases loadTry_columns (loadBegin s) env with hc | ⟨fl, hc⟩
  · rw [hc]; exact h
  · rw [hc]; exact buildColumns_widthsOk fl

theorem handleMouseMove_widthsOk (s : State) (x : Int) (h : WidthsOk s.columns) :
    WidthsOk (handleMouseMove s x).columns := by
  unfold handleMouseMove
  split
  · exact h
  · intro col hcol
    obtain ⟨c, hc, i, rfl⟩ := mem_mapIdxFrom _ _ _ _ hcol
    split
    · exact le_max_left _ _
    · exact h c hc

theorem handleDrop_columns (s : State) (t : Int) : (handleDrop s t).columns = s.columns := by
  unfold handleDrop
  split
  · rfl
  · split <;> rfl

theorem step_widthsOk (s : State) (op : Op) (h : WidthsOk s.columns) :
    WidthsOk (step s op).columns := by
  cases op with
  | load env => exact loadData_widthsOk s env h
  | resizeStart index clientX => exact h
  | mouseMove clientX => exact handleMouseMove_widthsOk s clientX h
  | mouseUp => exact h
  | dragStart index => exact h
  | drop t =>
    show WidthsOk (handleDrop s t).columns
    rw [handleDrop_columns]; exact h
  | save p env =>
    cases p with
    | rejected e => exact h
    | resolved => exact loadData_widthsOk { s with isLoading := true } env h

theorem reachable_widthsOk (s : State) (h : Reachable s) : WidthsOk s.columns := by
  induction h with
  | init => intro col hcol; simp [initialState] at hcol
  | step op _ ih => exact step_widthsOk _ op ih

/-- One pointer move while a resize of column `k` is active. -/
theorem handleMouseMove_active (s : State) (rs : ResizeState) (k : Nat) (x : Int)
    (hrs : s.resizeState = some rs) (hk : rs.index = (k : Int)) :
    (handleMouseMove s x).resizeState = some rs ∧
    (handleMouseMove s x).columns[k]? =
      (s.columns[k]?).map
        (fun col => { col with width := max MIN_COL_WIDTH (rs.startWidth + (x - rs.startX)) }) := by
  simp only [handleMouseMove, hrs, mapIdxFrom_getElem?, hk]
  refine ⟨trivial, ?_⟩
  cases s.columns[k]? <;> simp

/-- Pointer moves keep the resize active and keep column `k` in place. -/
theorem moves_active (moves : List Int) (s : State) (rs : ResizeState) (k : Nat)
    (hrs : s.resizeState = some rs) (hk : rs.index = (k : Int))
    (hcol : (s.columns[k]?).isSome = true) :
    (moves.foldl handleMouseMove s).resizeState = some rs ∧
    ((moves.foldl handleMouseMove s).columns[k]?).isSome = true := by
  induction moves generalizing s with
  | nil => exact ⟨hrs, hcol⟩
  | cons x moves ih =>
    obtain ⟨h1, h2⟩ := handleMouseMove_active s rs k x hrs hk
    refine ih (handleMouseMove s x) h1 ?_
    rw [h2]
    cases hc : s.columns[k]? with
    | none => simp [hc] at hcol
    | some c => simp

/-- Claim C9: in a reachable state, a resize started on column k at pointer position x0 while
the column is w0 wide, followed by pointer moves ending at xm, leaves column k with width
max(80, w0 + (xm - x0)), whatever the moves before the last one were. -/
theorem resize_width_from_snapshot (st : State) (hr : Reachable st) (k : Nat) (col : Column)
    (hk : st.columns[k]? = some col) (x0 : Int) (moves : List Int) (xm : Int) :
    (((moves ++ [xm]).foldl handleMouseMove (handleResizeStart st (k : Int) x0)).columns[k]?).map
        Column.width =
      some (max MIN_COL_WIDTH (col.width + (xm - x0))) := by
  have hmem : col ∈ st.columns := List.getElem?_mem hk
  have hw : MIN_COL_WIDTH ≤ col.width := reachable_widthsOk st hr col hmem
  have hne : col.width ≠ 0 := by
    intro h0
    rw [h0] at hw
    exact absurd hw (by decide)
  have hnn : ¬ ((k : Int) < 0) := by omega
  have hstart : handleResizeStart st (k : Int) x0 =
      { st with resizeState := some { index := (k : Int), startX := x0, startWidth := col.width } } := by
    simp [handleResizeStart, elemAt, hnn, hk, hne]
  obtain ⟨h1, h2⟩ := moves_active moves (handleResizeStart st (k : Int) x0)
    { index := (k : Int), startX := x0, startWidth := col.width } k (by rw [hstart]) rfl
    (by rw [hstart]; simp [hk])
  rw [List.foldl_append]
  simp only [List.foldl_cons, List.foldl_nil]
  rw [(handleMouseMove_active _ _ k xm h1 rfl).2]
  cases hc : (List.foldl handleMouseMove (handleResizeStart st (k : Int) x0) moves).columns[k]? with
  | none => simp [hc] at h2
  | some c => simp

/-- Claim C10: in every reachable state each column is at least `MIN_COL_WIDTH` wide, and for
every bound some reachable state has a column wider than the bound. -/
theorem width_floor_no_ceiling :
    (∀ s, Reachable s → ∀ col ∈ s.columns, MIN_COL_WIDTH ≤ col.width) ∧
    (∀ bound : Int, ∃ s, Reachable s ∧ ∃ col ∈ s.columns, bound < col.width) := by
  refine ⟨fun s hs => reachable_widthsOk s hs, ?_⟩
  intro bound
  refine ⟨run readyState [.load envThreeRecords, .resizeStart 0 0, .mouseMove bound],
    reachable_run (Reachable.init _ _ _ _ _) _, ?_⟩
  have hcols : (run readyState [.load envThreeRecords, .resizeStart 0 0, .mouseMove bound]).columns[0]?
      = some { fieldApi := "Name", label := .str "Name",
               width := max MIN_COL_WIDTH (DEFAULT_COL_WIDTH + (bound - 0)) } := by
    have hload : (loadData readyState envThreeRecords).1.columns[0]? =
        some { fieldApi := "Name", label := .str "Name", width := DEFAULT_COL_WIDTH } := rfl
    have hstart : (handleResizeStart (loadData readyState envThreeRecords).1 0 0).resizeState =
        some { index := ((0 : Nat) : Int), startX := 0, startWidth := DEFAULT_COL_WIDTH } := rfl
    have := (handleMouseMove_active (handleResizeStart (loadData readyState envThreeRecords).1 0 0)
      _ 0 bound hstart rfl).2
    simp only [run, List.foldl_cons, List.foldl_nil, step]
    rw [this]
    have hsame : (handleResizeStart (loadData readyState envThreeRecords).1 0 0).columns =
        (loadData readyState envThreeRecords).1.columns := rfl
    rw [hsame, hload]
    rfl
  refine ⟨_, List.getElem?_mem hcols, ?_⟩
  show bound < max MIN_COL_WIDTH (DEFAULT_COL_WIDTH + (bound - 0))
  have : bound < DEFAULT_COL_WIDTH + (bound - 0) := by
    simp [DEFAULT_COL_WIDTH]
  exact lt_of_lt_of_le this (le_max_right _ _)

/-- The drag of Scenario C: in `[A, B, C, D]` the row at index 2 dropped at index 0
gives `[C, A, B, D]` with `displayOrder` 1, 2, 3, 4. -/
theorem handleDrop_moves_row_witness :
    2 < dragExample.lineItems.length ∧ 0 < dragExample.lineItems.length ∧ (2 : Nat) ≠ 0 ∧
    dragExample.draggedIndex = some ((2 : Nat) : Int) ∧
    ((handleDrop dragExample ((0 : Nat) : Int)).lineItems.length = dragExample.lineItems.length ∧
      ∀ i : Nat, (handleDrop dragExample ((0 : Nat) : Int)).lineItems[i]? =
        ((removeThenInsert dragExample.lineItems 2 0)[i]?).map
          (fun row => { row with displayOrder := i + 1 })) ∧
    (handleDrop dragExample 0).lineItems =
      [plainRow "C" 1, plainRow "A" 2, plainRow "B" 3, plainRow "D" 4] :=
  ⟨by decide, by decide, by decide, rfl,
    handleDrop_moves_row dragExample 2 0 (by decide) (by decide) (by decide) rfl, rfl⟩

/-- The load of Scenario B: three records give three rows with their ids in order and
`displayOrder` 1, 2, 3. -/
theorem loadData_rows_follow_records_witness :
    loadError readyState envThreeRecords = none ∧
    (∃ result records, envThreeRecords.fetch = .resolved (some result) ∧
      result.records = some records ∧
      (loadData readyState envThreeRecords).1.lineItems.length = records.length ∧
      ∀ i, ((loadData readyState envThreeRecords).1.lineItems[i]?).map
          (fun row => (row.id, row.displayOrder)) =
        (records[i]?).map (fun rec => (rec.optGet "Id", i + 1))) ∧
    (loadData readyState envThreeRecords).1.lineItems.map (fun row => (row.id, row.displayOrder)) =
      [(.str "001", 1), (.str "002", 2), (.str "003", 3)] :=
  ⟨rfl, loadData_rows_follow_records readyState envThreeRecords rfl, rfl⟩

/-- After a load of three records and a drag of the last row to the top, the rows are
numbered 1, 2, 3 in their new order. -/
theorem displayOrder_contiguous_witness :
    Reachable (run readyState [.load envThreeRecords, .dragStart 2, .drop 0]) ∧
    (∀ i row, (run readyState [.load envThreeRecords, .dragStart 2, .drop 0]).lineItems[i]? =
      some row → row.displayOrder = i + 1) ∧
    (run readyState [.load envThreeRecords, .dragStart 2, .drop 0]).lineItems.map
        (fun row => (row.id, row.displayOrder)) =
      [(.str "003", 1), (.str "001", 2), (.str "002", 3)] :=
  ⟨reachable_run (Reachable.init _ _ _ _ _) _,
    displayOrder_contiguous _ (reachable_run (Reachable.init _ _ _ _ _) _), rfl⟩

/-- The load of Scenario A: with `sortFieldApiName` unset no fetch is made and the error
message names it. -/
theorem loadData_missing_config_witness :
    truthyStr (ConfigInput.sortFieldApiName.value { readyState with sortFieldApiName := none })
      = false ∧
    ((loadData { readyState with sortFieldApiName := none } envThreeRecords).2.filter
        Effect.isGetRecords = [] ∧
      ∃ m, firstMissing { readyState with sortFieldApiName := none } = some m ∧
        (loadData { readyState with sortFieldApiName := none } envThreeRecords).1.errorMessage =
          .str m.errorText ∧ m.errorText ≠ "") ∧
    (loadData { readyState with sortFieldApiName := none } envThreeRecords).1.errorMessage =
      .str "sortFieldApiName が未指定です。" :=
  ⟨rfl, loadData_missing_config _ envThreeRecords .sortFieldApiName rfl, rfl⟩

/-- A rejected fetch leaves rows and columns as they were and reports the payload message. -/
theorem loadData_failure_state_witness :
    loadError readyState envRejected = some payloadError ∧
    ((loadData readyState envRejected).1.lineItems = readyState.lineItems ∧
      (loadData readyState envRejected).1.errorMessage = normalizeError payloadError ∧
      (failsBeforeColumns readyState envRejected = true →
        (loadData readyState envRejected).1.columns = readyState.columns)) ∧
    failsBeforeColumns readyState envRejected = true ∧
    (loadData readyState envRejected).1.errorMessage = .str "field-level security" :=
  ⟨rfl, loadData_failure_state readyState envRejected payloadError rfl, rfl, rfl⟩

/-- The resize of Scenario D: a column 140 wide grabbed at 100 is 190 wide after a move to
150, and 80 wide after a further move to 0. -/
theorem resize_width_from_snapshot_witness :
    Reachable (loadData readyState envThreeRecords).1 ∧
    (loadData readyState envThreeRecords).1.columns[0]? =
      some { fieldApi := "Name", label := .str "Name", width := 140 } ∧
    ((([] ++ [150]).foldl handleMouseMove
        (handleResizeStart (loadData readyState envThreeRecords).1 ((0 : Nat) : Int) 100)).columns[0]?).map
        Column.width = some (max MIN_COL_WIDTH ((140 : Int) + (150 - 100))) ∧
    ((([150] ++ [0]).foldl handleMouseMove
        (handleResizeStart (loadData readyState envThreeRecords).1 ((0 : Nat) : Int) 100)).columns[0]?).map
        Column.width = some (max MIN_COL_WIDTH ((140 : Int) + (0 - 100))) ∧
    max MIN_COL_WIDTH ((140 : Int) + (150 - 100)) = 190 ∧
    max MIN_COL_WIDTH ((140 : Int) + (0 - 100)) = 80 :=
  ⟨Reachable.step (.load envThreeRecords) (Reachable.init _ _ _ _ _), rfl,
    resize_width_from_snapshot (loadData readyState envThreeRecords).1
      (Reachable.step (.load envThreeRecords) (Reachable.init _ _ _ _ _)) 0
      { fieldApi := "Name", label := .str "Name", width := 140 } rfl 100 [] 150,
    resize_width_from_snapshot (loadData readyState envThreeRecords).1
      (Reachable.step (.load envThreeRecords) (Reachable.init _ _ _ _ _)) 0
      { fieldApi := "Name", label := .str "Name", width := 140 } rfl 100 [150] 0,
    by decide, by decide⟩

/-- After a resize that asks for a width of 40 every column is still at least 80 wide. -/
theorem width_floor_no_ceiling_witness :
    Reachable (run readyState [.load envThreeRecords, .resizeStart 0 100, .mouseMove 0]) ∧
    ∀ col ∈ (run readyState [.load envThreeRecords, .resizeStart 0 100, .mouseMove 0]).columns,
      MIN_COL_WIDTH ≤ col.width :=
  ⟨reachable_run (Reachable.init _ _ _ _ _) _,
    width_floor_no_ceiling.1 _ (reachable_run (Reachable.init _ _ _ _ _) _)⟩

theorem handleMouseMove_columns_getElem? (s : State) (x : Int) (i : Nat) :
    (handleMouseMove s x).columns[i]? = s.columns[i]? ∨
    (∃ rs, s.resizeState = some rs ∧ rs.index = (i : Int) ∧
      (handleMouseMove s x).columns[i]? = (s.columns[i]?).map fun col =>
        { col with width := max MIN_COL_WIDTH (rs.startWidth + (x - rs.startX)) }) := by
  cases hrs : s.resizeState with
  | none => left; simp [handleMouseMove, hrs]
  | some rs =>
    by_cases hi : (i : Int) = rs.index
    · right
      exact ⟨rs, rfl, hi.symm, (handleMouseMove_active s rs i x hrs hi.symm).2⟩
    · left
      simp only [handleMouseMove, hrs, mapIdxFrom_getElem?]
      cases s.columns[i]? <;> simp [hi]

/-- Claim C11: `handleMouseMove` changes no field of the component other than `columns`; it
keeps the number and order of the columns and every column's field key and label; every
column other than the one at the active resize index is unchanged; and when no resize is
active, as after `handleMouseUp`, it changes nothing at all. -/
theorem handleMouseMove_frame (s : State) (x : Int) :
    { handleMouseMove s x with columns := s.columns } = s ∧
    (handleMouseMove s x).columns.length = s.columns.length ∧
    (∀ i : Nat,
      ((handleMouseMove s x).columns[i]?).map (fun col : Column => (col.fieldApi, col.label)) =
        (s.columns[i]?).map (fun col : Column => (col.fieldApi, col.label))) ∧
    (∀ i : Nat, (handleMouseMove s x).columns[i]? = s.columns[i]? ∨
      s.resizeState.map (fun rs => rs.index) = some (i : Int)) ∧
    handleMouseMove { s with resizeState := none } x = { s with resizeState := none } ∧
    handleMouseMove (handleMouseUp s) x = handleMouseUp s := by
  refine ⟨?_, ?_, ?_, ?_, rfl, rfl⟩
  · unfold handleMouseMove
    split <;> rfl
  · unfold handleMouseMove
    split
    · rfl
    · simp [mapIdxFrom_length]
  · intro i
    rcases handleMouseMove_columns_getElem? s x i with h | ⟨rs, -, -, h⟩
    · rw [h]
    · rw [h]
      cases s.columns[i]? <;> simp
  · intro i
    rcases handleMouseMove_columns_getElem? s x i with h | ⟨rs, hrs, hi, -⟩
    · exact Or.inl h
    · right
      simp [hrs, hi]

/-- Claim C17: `handleDrop` leaves the component, and so its rows with their identities, order
and `displayOrder`, unchanged when no source index is recorded or when the target index
equals the recorded source index. -/
theorem handleDrop_noop (s : State) (targetIndex : Int)
    (h : s.draggedIndex = none ∨ s.draggedIndex = some targetIndex) :
    handleDrop s targetIndex = s := by
  rcases h with h | h
  · simp [handleDrop, h]
  · simp [handleDrop, h]

/-- A drop of the dragged row onto itself, and a drop with no drag started, change nothing. -/
theorem handleDrop_noop_witness :
    (dragExample.draggedIndex = none ∨ dragExample.draggedIndex = some 2) ∧
    handleDrop dragExample 2 = dragExample ∧
    handleDrop { dragExample with draggedIndex := none } 0 =
      { dragExample with draggedIndex := none } :=
  ⟨Or.inr rfl, handleDrop_noop dragExample 2 (Or.inr rfl),
    handleDrop_noop { dragExample with draggedIndex := none } 0 (Or.inl rfl)⟩

/-- Claim C19, at the failing input: in `[A, B, C, D]` with source index 2 recorded, a drop at
index 2 returns with the source index still recorded, and a further drop at index 0 with
no new drag start moves `C` to the top. -/
theorem handleDrop_same_index_keeps_source :
    (handleDrop dragExample 2).draggedIndex = some 2 ∧
    (handleDrop (handleDrop dragExample 2) 0).lineItems =
      [plainRow "C" 1, plainRow "A" 2, plainRow "B" 3, plainRow "D" 4] ∧
    (handleDrop (handleDrop dragExample 2) 0).lineItems ≠ (handleDrop dragExample 2).lineItems := by
  refine ⟨rfl, rfl, ?_⟩
  intro h
  have h0 : (some (JVal.str "C") : Option JVal) = some (JVal.str "A") :=
    congrArg (fun rows : List Row => (rows.head?).map Row.id) h
  injection h0 with h1
  injection h1 with h2
  exact absurd h2 (by decide)

theorem splitChars_ne_nil (sep : Char) (cs : List Char) : splitChars sep cs ≠ [] := by
  cases cs with
  | nil => simp [splitChars]
  | cons c cs =>
    unfold splitChars
    split
    · simp
    · split <;> simp

theorem splitChars_length (sep : Char) (cs : List Char) :
    (splitChars sep cs).length = cs.count sep + 1 := by
  induction cs with
  | nil => simp [splitChars]
  | cons c cs ih =>
    unfold splitChars
    by_cases hc : c = sep
    · subst hc
      simp [ih]
    · have hne : ¬ ((c == sep) = true) := by simpa using hc
      rw [if_neg hc, List.count_cons, if_neg hne]
      cases hs : splitChars sep cs with
      | nil => exact absurd hs (splitChars_ne_nil sep cs)
      | cons p ps =>
        rw [hs] at ih
        simpa using ih

theorem splitChars_of_not_mem (sep : Char) (cs : List Char) (h : sep ∉ cs) :
    splitChars sep cs = [cs] := by
  induction cs with
  | nil => rfl
  | cons c cs ih =>
    have hc : c ≠ sep := fun e => h (by simp [e])
    have hcs : sep ∉ cs := fun e => h (by simp [e])
    unfold splitChars
    rw [if_neg hc, ih hcs]

theorem splitChars_append (sep : Char) (a b : List Char) (h : sep ∉ a) :
    splitChars sep (a ++ sep :: b) = a :: splitChars sep b := by
  induction a with
  | nil => simp [splitChars]
  | cons c a ih =>
    have hc : c ≠ sep := fun e => h (by simp [e])
    have ha : sep ∉ a := fun e => h (by simp [e])
    show splitChars sep (c :: (a ++ sep :: b)) = (c :: a) :: splitChars sep b
    rw [splitChars, if_neg hc, ih ha]

theorem lookupProp_absent (props : List (String × JVal)) (key : String)
    (h : key ∉ props.map Prod.fst) : lookupProp props key = .undefined := by
  induction props with
  | nil => rfl
  | cons kv rest ih =>
    obtain ⟨k, v⟩ := kv
    simp only [List.map_cons, List.mem_cons, not_or] at h
    unfold lookupProp
    rw [if_neg (fun e => h.1 e.symm)]
    exact ih h.2

theorem optGet_of_nullish (v : JVal) (key : String) (h : v.isNullish = true) :
    v.optGet key = .undefined := by
  cases v <;> simp [JVal.isNullish] at h <;> rfl

theorem truthy_of_nullish (v : JVal) (h : v.isNullish = true) : v.truthy = false := by
  cases v <;> simp [JVal.isNullish] at h <;> rfl

/-- The plain-key path of `resolvedField`. -/
theorem resolvedField_plain (record : JVal) (f : String) (hf : f ≠ "")
    (hdot : '.' ∉ f.toList) (ht : record.truthy = true) :
    resolvedField record (some f) = (record.optGet f).coalesce (.str "") := by
  have h1 : (f == "") = false := by simpa using hf
  have h2 : '.' ∉ f.data := hdot
  simp [resolvedField, ht, h1, h2]

theorem dotted_toList (rel fld : String) :
    (rel ++ "." ++ fld).toList = rel.toList ++ '.' :: fld.toList := by
  simp [String.toList, String.data_append]

/-- The two-part path of `resolvedField`. -/
theorem resolvedField_dotted (record : JVal) (rel fld : String)
    (hrel : '.' ∉ rel.toList) (hfld : '.' ∉ fld.toList) (ht : record.truthy = true) :
    resolvedField record (some (rel ++ "." ++ fld)) =
      ((record.optGet rel).optGet fld).coalesce (.str "") := by
  have hl := dotted_toList rel fld
  have h1 : ((rel ++ "." ++ fld) == "") = false := by
    have : rel ++ "." ++ fld ≠ "" := by
      intro e
      have := congrArg String.toList e
      rw [hl] at this
      simp at this
    simpa using this
  have h2 : (rel ++ "." ++ fld).toList.contains '.' = true := by
    rw [hl]; simp
  have h3 : splitChars '.' (rel ++ "." ++ fld).toList = [rel.toList, fld.toList] := by
    rw [hl, splitChars_append _ _ _ hrel, splitChars_of_not_mem _ _ hfld]
  simp only [resolvedField, ht, h1, h2, h3]
  simp [String.toList]

/-- The result of `resolvedField` for a spec with more than one separator. -/
theorem resolvedField_many_dots (record : JVal) (f : String) (h : 2 ≤ f.toList.count '.') :
    resolvedField record (some f) = .str "" := by
  have hlen := splitChars_length '.' f.toList
  unfold resolvedField
  simp only
  split
  · rfl
  · split
    · split
      · rename_i rel fld hs
        rw [hs] at hlen
        simp only [List.length_cons, List.length_nil] at hlen
        omega
      · rfl
    · rename_i hc
      have hnot : '.' ∉ f.toList := by simpa using hc
      rw [List.count_eq_zero_of_not_mem hnot] at h
      omega

theorem resolvedField_falsy_record (record : JVal) (h : record.truthy = false)
    (f : Option String) : resolvedField record f = .str "" := by
  cases f with
  | none => rfl
  | some f => simp [resolvedField, h]

theorem resolvedField_empty_spec (record : JVal) : resolvedField record (some "") = .str "" := by
  simp [resolvedField]

theorem coalesce_of_nullish (v d : JVal) (h : v.isNullish = true) : v.coalesce d = d := by
  simp [JVal.coalesce, h]

theorem coalesce_of_value (v d : JVal) (h : v.isNullish = false) : v.coalesce d = v := by
  simp [JVal.coalesce, h]

theorem resolvedField_plain_nullish (record : JVal) (f : String) (hdot : '.' ∉ f.toList)
    (h : (record.optGet f).isNullish = true) : resolvedField record (some f) = .str "" := by
  by_cases hf : f = ""
  · subst hf; exact resolvedField_empty_spec record
  · cases ht : record.truthy with
    | false => exact resolvedField_falsy_record record ht _
    | true => rw [resolvedField_plain record f hf hdot ht, coalesce_of_nullish _ _ h]

theorem resolvedField_dotted_nullish (record : JVal) (rel fld : String)
    (hrel : '.' ∉ rel.toList) (hfld : '.' ∉ fld.toList)
    (h : (record.optGet rel).isNullish = true ∨ ((record.optGet rel).optGet fld).isNullish = true) :
    resolvedField record (some (rel ++ "." ++ fld)) = .str "" := by
  have h2 : ((record.optGet rel).optGet fld).isNullish = true := by
    rcases h with h | h
    · rw [optGet_of_nullish _ _ h]; rfl
    · exact h
  cases ht : record.truthy with
  | false => exact resolvedField_falsy_record record ht _
  | true => rw [resolvedField_dotted record rel fld hrel hfld ht, coalesce_of_nullish _ _ h2]

theorem optGet_obj_own (props : List (String × JVal)) (key : String)
    (h : key ∈ props.map Prod.fst) : (JVal.obj props).optGet key = lookupProp props key := by
  simp only [JVal.optGet, if_pos h]

theorem optGet_obj_absent (props : List (String × JVal)) (key : String)
    (h : key ∉ props.map Prod.fst) :
    (JVal.obj props).optGet key = inheritedMember "Object" objectPrototypeMethods key := by
  simp only [JVal.optGet, if_neg h]

/-- A value held by an object is what reading its key gives. -/
theorem optGet_obj_of_value (props : List (String × JVal)) (key : String) (v : JVal)
    (hl : lookupProp props key = v) (hv : v.isNullish = false) :
    (JVal.obj props).optGet key = v := by
  by_cases hmem : key ∈ props.map Prod.fst
  · rw [optGet_obj_own props key hmem, hl]
  · rw [lookupProp_absent props key hmem] at hl
    rw [← hl] at hv
    cases hv

/-- Claim C13: for a record that has a value `v` under a non-empty plain key, `resolvedField`
returns `v`; for a spec "rel.fld" with exactly one '.', a record that has a related record
under `rel`, and a value `v` of that related record under `fld`, `resolvedField` returns `v`. -/
theorem resolvedField_value (props : List (String × JVal)) (v : JVal)
    (hv : v.isNullish = false) :
    (∀ f : String, f ≠ "" → '.' ∉ f.toList → lookupProp props f = v →
      resolvedField (.obj props) (some f) = v) ∧
    (∀ (rel fld : String) (rprops : List (String × JVal)),
      '.' ∉ rel.toList → '.' ∉ fld.toList →
      lookupProp props rel = .obj rprops → lookupProp rprops fld = v →
      resolvedField (.obj props) (some (rel ++ "." ++ fld)) = v) := by
  refine ⟨?_, ?_⟩
  · intro f hf hdot hl
    rw [resolvedField_plain (.obj props) f hf hdot rfl, optGet_obj_of_value props f v hl hv,
      coalesce_of_value _ _ hv]
  · intro rel fld rprops hrel hfld hr hl
    rw [resolvedField_dotted (.obj props) rel fld hrel hfld rfl,
      optGet_obj_of_value props rel (.obj rprops) hr rfl,
      optGet_obj_of_value rprops fld v hl hv, coalesce_of_value _ _ hv]

theorem or_of_truthy (a b : JVal) (h : a.truthy = true) : a.or b = a := by
  simp [JVal.or, h]

theorem or_of_falsy (a b : JVal) (h : a.truthy = false) : a.or b = b := by
  simp [JVal.or, h]

theorem truthy_str (m : String) (h : m ≠ "") : (JVal.str m).truthy = true := by
  simp [JVal.truthy, h]

/-- Claim C14: `normalizeError e` is the payload message `e.body.message` when that is a
non-empty string, otherwise the message `e.message` when that is a non-empty string,
otherwise the fixed default text; its result is always truthy, so never empty. -/
theorem normalizeError_spec (e : JVal) :
    (∀ m : String, m ≠ "" → (e.optGet "body").optGet "message" = .str m →
      normalizeError e = .str m) ∧
    (∀ m : String, m ≠ "" → ((e.optGet "body").optGet "message").truthy = false →
      e.optGet "message" = .str m → normalizeError e = .str m) ∧
    (((e.optGet "body").optGet "message").truthy = false → (e.optGet "message").truthy = false →
      normalizeError e = .str "処理に失敗しました。") ∧
    (normalizeError e).truthy = true ∧
    normalizeError e ≠ .str "" ∧ (normalizeError e).isNullish = false := by
  have hdef : (JVal.str "処理に失敗しました。").truthy = true := by
    simp [JVal.truthy]
  have htruthy : (normalizeError e).truthy = true := by
    unfold normalizeError
    cases h1 : ((e.optGet "body").optGet "message").truthy with
    | true => rw [or_of_truthy _ _ h1, or_of_truthy _ _ h1]; exact h1
    | false =>
      rw [or_of_falsy _ _ h1]
      cases h2 : (e.optGet "message").truthy with
      | true => rw [or_of_truthy _ _ h2]; exact h2
      | false => rw [or_of_falsy _ _ h2]; exact hdef
  refine ⟨?_, ?_, ?_, htruthy, ?_, ?_⟩
  · intro m hm hb
    have ht : ((e.optGet "body").optGet "message").truthy = true := by
      rw [hb]; exact truthy_str m hm
    unfold normalizeError
    rw [or_of_truthy _ _ ht, or_of_truthy _ _ ht, hb]
  · intro m hm hb hmsg
    have ht : (e.optGet "message").truthy = true := by
      rw [hmsg]; exact truthy_str m hm
    unfold normalizeError
    rw [or_of_falsy _ _ hb, or_of_truthy _ _ ht, hmsg]
  · intro hb hmsg
    unfold normalizeError
    rw [or_of_falsy _ _ hb, or_of_falsy _ _ hmsg]
  · intro h
    rw [h] at htruthy
    simp [JVal.truthy] at htruthy
  · cases hn : (normalizeError e).isNullish with
    | false => rfl
    | true =>
      rw [truthy_of_nullish _ hn] at htruthy
      cases htruthy

/-- The specs "Account.Name" and "Name" read the related and the direct value. -/
theorem resolvedField_value_witness :
    (JVal.str "Acme").isNullish = false ∧
    lookupProp relatedRecordProps "Account" = .obj [("Name", .str "Acme")] ∧
    resolvedField (.obj relatedRecordProps) (some ("Account" ++ "." ++ "Name")) = .str "Acme" ∧
    resolvedField (.obj relatedRecordProps) (some "Name") = .str "Bolt" :=
  ⟨rfl, rfl,
    (resolvedField_value relatedRecordProps (.str "Acme") rfl).2 "Account" "Name"
      [("Name", .str "Acme")] (by decide) (by decide) rfl rfl,
    (resolvedField_value relatedRecordProps (.str "Bolt") rfl).1 "Name" (by decide) (by decide)
      rfl⟩

/-- The three sources of the message: payload, exception message, default. -/
theorem normalizeError_spec_witness :
    normalizeError payloadError = .str "field-level security" ∧
    normalizeError (mkError "timeout") = .str "timeout" ∧
    normalizeError .undefined = .str "処理に失敗しました。" :=
  ⟨(normalizeError_spec payloadError).1 "field-level security" (by decide) rfl,
    (normalizeError_spec (mkError "timeout")).2.1 "timeout" (by decide) rfl rfl,
    (normalizeError_spec .undefined).2.2.1 rfl rfl⟩

theorem loadData_isLoading (s : State) (env : LoadEnv) : (loadData s env).1.isLoading = false := rfl

theorem handleSave_isLoading (s : State) (p : PersistOutcome) (env : LoadEnv) :
    (handleSave s p env).1.isLoading = false := by
  cases p <;> rfl

theorem buildRows_cells (s : State) (k : Nat) (recs : List JVal) (rows : List Row)
    (h : buildRows s k recs = some rows) :
    ∀ i : Nat, (rows[i]?).map (fun row : Row => row.cells) =
      (recs[i]?).map (fun rec => some (s.columns.map fun col : Column =>
        ({ fieldApi := col.fieldApi, value := resolvedField rec (some col.fieldApi) } : Cell))) := by
  induction recs generalizing k rows with
  | nil =>
    simp only [buildRows, Option.some.injEq] at h
    subst h
    simp
  | cons rec rest ih =>
    simp only [buildRows] at h
    cases hrow : buildRow s rec k with
    | none => simp [hrow] at h
    | some row =>
      cases hrest : buildRows s (k + 1) rest with
      | none => simp [hrow, hrest] at h
      | some rows1 =>
        simp only [hrow, hrest, Option.some.injEq] at h
        subst h
        intro i
        cases i with
        | zero =>
          unfold buildRow at hrow
          split at hrow
          · simp at hrow
          · simp only [Option.some.injEq] at hrow
            subst hrow
            simp
        | succ i =>
          simp only [List.getElem?_cons_succ]
          exact ih (k + 1) rows1 hrest i

theorem lookupProp_of_nodup (fl : List (String × JVal)) (h : (fl.map Prod.fst).Nodup)
    (i : Nat) (kv : String × JVal) (hi : fl[i]? = some kv) : lookupProp fl kv.1 = kv.2 := by
  induction fl generalizing i with
  | nil => simp at hi
  | cons hd tl ih =>
    obtain ⟨k, v⟩ := hd
    simp only [List.map_cons, List.nodup_cons] at h
    cases i with
    | zero =>
      simp only [List.getElem?_cons_zero, Option.some.injEq] at hi
      subst hi
      simp [lookupProp]
    | succ i =>
      simp only [List.getElem?_cons_succ] at hi
      have hmem : kv.1 ∈ tl.map Prod.fst := List.mem_map_of_mem _ (List.getElem?_mem hi)
      have hne : k ≠ kv.1 := fun e => h.1 (e ▸ hmem)
      unfold lookupProp
      rw [if_neg hne]
      exact ih h.2 i hi

theorem buildColumns_getElem? (fl : List (String × JVal)) (i : Nat) :
    (buildColumns fl)[i]? = (fl[i]?).map fun kv =>
      ({ fieldApi := kv.1, label := lookupProp fl kv.1, width := DEFAULT_COL_WIDTH } : Column) := by
  simp only [buildColumns, List.getElem?_map, Option.map_map]
  rfl

/-- Claim C16: after a successful load the columns are, entry by entry and in the same
order, the keys of the field-label mapping the fetch resolved with, each with the label the
mapping gives that key and width `DEFAULT_COL_WIDTH`; and the cells of row i are, column
by column and in column order, that column's key with `resolvedField` of record i and
that key. -/
theorem loadData_columns_and_cells (s : State) (env : LoadEnv) (h : loadError s env = none) :
    ∃ result fieldLabels records,
      env.fetch = .resolved (some result) ∧ result.fieldLabels = some fieldLabels ∧
      result.records = some records ∧
      (loadData s env).1.columns.length = fieldLabels.length ∧
      (∀ i : Nat, (loadData s env).1.columns[i]? = (fieldLabels[i]?).map fun kv =>
        ({ fieldApi := kv.1, label := lookupProp fieldLabels kv.1,
           width := DEFAULT_COL_WIDTH } : Column)) ∧
      ((fieldLabels.map Prod.fst).Nodup →
        ∀ i : Nat, (loadData s env).1.columns[i]? = (fieldLabels[i]?).map fun kv =>
          ({ fieldApi := kv.1, label := kv.2, width := DEFAULT_COL_WIDTH } : Column)) ∧
      (∀ i : Nat, ((loadData s env).1.lineItems[i]?).map (fun row : Row => row.cells) =
        (records[i]?).map fun rec => some ((loadData s env).1.columns.map fun col : Column =>
          ({ fieldApi := col.fieldApi,
             value := resolvedField rec (some col.fieldApi) } : Cell))) ∧
      DEFAULT_COL_WIDTH = 140 := by
  obtain ⟨result, fl, recs, rows, hf, hfl, hrecs, hrows, hst⟩ := loadTry_success _ _ h
  have hcols : (loadData s env).1.columns = buildColumns fl := by
    rw [loadData_columns, hst]
  have hrowsEq : (loadData s env).1.lineItems = rows := by
    rw [loadData_lineItems, hst]
  refine ⟨result, fl, recs, hf, hfl, hrecs, ?_, ?_, ?_, ?_, rfl⟩
  · rw [hcols]; simp [buildColumns]
  · intro i
    rw [hcols, buildColumns_getElem?]
  · intro hnd i
    rw [hcols, buildColumns_getElem?]
    cases hi : fl[i]? with
    | none => rfl
    | some kv =>
      simp only [Option.map_some']
      rw [lookupProp_of_nodup fl hnd i kv hi]
  · intro i
    rw [hrowsEq, hcols]
    exact buildRows_cells _ 0 recs rows hrows i

/-- The load of Scenario B: two columns `Name`, `Amount` of width 140 and cells aligned to them. -/
theorem loadData_columns_and_cells_witness :
    loadError readyState envThreeRecords = none ∧
    (∃ result fieldLabels records,
      envThreeRecords.fetch = .resolved (some result) ∧ result.fieldLabels = some fieldLabels ∧
      result.records = some records ∧
      (loadData readyState envThreeRecords).1.columns.length = fieldLabels.length ∧
      (∀ i : Nat, (loadData readyState envThreeRecords).1.columns[i]? =
        (fieldLabels[i]?).map fun kv =>
          ({ fieldApi := kv.1, label := lookupProp fieldLabels kv.1,
             width := DEFAULT_COL_WIDTH } : Column)) ∧
      ((fieldLabels.map Prod.fst).Nodup →
        ∀ i : Nat, (loadData readyState envThreeRecords).1.columns[i]? =
          (fieldLabels[i]?).map fun kv =>
            ({ fieldApi := kv.1, label := kv.2, width := DEFAULT_COL_WIDTH } : Column)) ∧
      (∀ i : Nat, ((loadData readyState envThreeRecords).1.lineItems[i]?).map
          (fun row : Row => row.cells) =
        (records[i]?).map fun rec =>
          some ((loadData readyState envThreeRecords).1.columns.map fun col : Column =>
            ({ fieldApi := col.fieldApi,
               value := resolvedField rec (some col.fieldApi) } : Cell))) ∧
      DEFAULT_COL_WIDTH = 140) ∧
    (loadData readyState envThreeRecords).1.columns =
      [{ fieldApi := "Name", label := .str "Name", width := 140 },
       { fieldApi := "Amount", label := .str "Amount", width := 140 }] ∧
    ((loadData readyState envThreeRecords).1.lineItems[1]?).map (fun row : Row => row.cells) =
      some (some [{ fieldApi := "Name", value := .str "Nut" },
                  { fieldApi := "Amount", value := .num 5 }]) :=
  ⟨rfl, loadData_columns_and_cells readyState envThreeRecords rfl, rfl, rfl⟩

theorem buildRows_ids (s : State) (k : Nat) (recs : List JVal) (rows : List Row)
    (h : buildRows s k recs = some rows) :
    rows.map (fun row => row.id) = recs.map (fun rec => rec.optGet "Id") := by
  induction recs generalizing k rows with
  | nil =>
    simp only [buildRows, Option.some.injEq] at h
    subst h
    rfl
  | cons rec rest ih =>
    simp only [buildRows] at h
    cases hrow : buildRow s rec k with
    | none => simp [hrow] at h
    | some row =>
      cases hrest : buildRows s (k + 1) rest with
      | none => simp [hrow, hrest] at h
      | some rows1 =>
        simp only [hrow, hrest, Option.some.injEq] at h
        subst h
        have hid : row.id = rec.optGet "Id" := by
          unfold buildRow at hrow
          split at hrow
          · simp at hrow
          · simp only [Option.some.injEq] at hrow
            subst hrow
            rfl
        simp only [List.map_cons, hid, ih (k + 1) rows1 hrest]

/-- The row ids after a successful load are the ids the fetch returned. -/
theorem loadData_ids_of_success (s : State) (env : LoadEnv) (h : loadError s env = none) :
    (loadData s env).1.lineItems.map (fun row => row.id) = fetchedIds env := by
  obtain ⟨result, fl, recs, rows, hf, -, hrecs, hrows, hst⟩ := loadTry_success _ _ h
  rw [loadData_lineItems, hst]
  simp only [fetchedIds, hf, hrecs, Option.getD_some]
  exact buildRows_ids _ 0 recs rows hrows

/-- The rows after a failed load are those before it. -/
theorem loadData_lineItems_of_failure (s : State) (env : LoadEnv) (e : JVal)
    (h : loadError s env = some e) : (loadData s env).1.lineItems = s.lineItems := by
  rw [loadData_lineItems, loadTry_failure_lineItems _ _ e h]
  rfl

theorem perm_cons_eraseIdx {α : Type} (xs : List α) (d : Nat) (x : α) (h : xs[d]? = some x) :
    List.Perm (x :: xs.eraseIdx d) xs := by
  induction xs generalizing d with
  | nil => simp at h
  | cons y ys ih =>
    cases d with
    | zero =>
      simp only [List.getElem?_cons_zero, Option.some.injEq] at h
      subst h
      simp
    | succ d =>
      simp only [List.getElem?_cons_succ] at h
      simp only [List.eraseIdx_cons_succ]
      exact (List.Perm.swap y x _).trans ((ih d h).cons y)

theorem mapIdxFrom_map_id (rows : List Row) (k : Nat) :
    (mapIdxFrom (fun item idx => { item with displayOrder := idx + 1 }) k rows).map
        (fun row => row.id) = rows.map (fun row => row.id) := by
  induction rows generalizing k with
  | nil => rfl
  | cons r rs ih => simp [mapIdxFrom, ih]

theorem spliceStart_of_valid (rows : List Row) (i : Int) (h : validIndex rows i = true) :
    spliceStart rows.length i = i.toNat ∧ i.toNat < rows.length := by
  simp only [validIndex, Bool.and_eq_true, decide_eq_true_eq] at h
  obtain ⟨h0, h1⟩ := h
  have hlt : i.toNat < rows.length := by omega
  refine ⟨?_, hlt⟩
  unfold spliceStart
  rw [if_neg (by omega)]
  exact Nat.min_eq_left (le_of_lt hlt)

/-- A drop with a valid target and a valid recorded source permutes the row ids. -/
theorem handleDrop_ids_perm (s : State) (t : Int) (ht : validIndex s.lineItems t = true)
    (hd : sourceValidAtDrop s (.drop t) = true) :
    List.Perm ((handleDrop s t).lineItems.map (fun row => row.id))
      (s.lineItems.map (fun row => row.id)) := by
  cases hdi : s.draggedIndex with
  | none => simp [handleDrop, hdi]
  | some d =>
    by_cases htd : t = d
    · simp [handleDrop, hdi, htd]
    · have hdv : validIndex s.lineItems d = true := by
        simpa [sourceValidAtDrop, hdi] using hd
      obtain ⟨hsrc, hsl⟩ := spliceStart_of_valid _ d hdv
      obtain ⟨-, htl⟩ := spliceStart_of_valid _ t ht
      have ht0 : ¬ t < 0 := by
        simp only [validIndex, Bool.and_eq_true, decide_eq_true_eq] at ht
        omega
      obtain ⟨x, hx⟩ : ∃ x, s.lineItems[d.toNat]? = some x :=
        ⟨_, List.getElem?_eq_getElem hsl⟩
      have hlen : (s.lineItems.eraseIdx d.toNat).length = s.lineItems.length - 1 :=
        List.length_eraseIdx_of_lt hsl
      have hdst : spliceStart (s.lineItems.eraseIdx d.toNat).length t = t.toNat := by
        unfold spliceStart
        rw [if_neg ht0]
        exact Nat.min_eq_left (by omega)
      have hres : (handleDrop s t).lineItems =
          mapIdxFrom (fun item idx => { item with displayOrder := idx + 1 }) 0
            ((s.lineItems.eraseIdx d.toNat).insertIdx t.toNat x) := by
        simp only [handleDrop, hdi, if_neg htd, hsrc, hdst, List.get?_eq_getElem?, hx,
          Option.getD_some]
      rw [hres, mapIdxFrom_map_id]
      have hp : List.Perm ((s.lineItems.eraseIdx d.toNat).insertIdx t.toNat x) s.lineItems :=
        (List.perm_insertIdx x _ (by omega)).trans (perm_cons_eraseIdx _ _ _ hx)
      exact hp.map _

/-- One operation keeps the row ids a permutation of the most recently loaded ids. -/
theorem step_ids_perm (s : State) (ids : List JVal) (op : Op)
    (h : List.Perm (s.lineItems.map (fun row => row.id)) ids)
    (hv : indexValidAtEvent s op = true) (hs : sourceValidAtDrop s op = true) :
    List.Perm ((step s op).lineItems.map (fun row => row.id)) (idsAfter s ids op) := by
  cases op with
  | load env =>
    show List.Perm ((loadData s env).1.lineItems.map _) (idsAfter s ids (.load env))
    cases he : loadError s env with
    | none =>
      rw [loadData_ids_of_success s env he]
      simp [idsAfter, he]
    | some e =>
      rw [loadData_lineItems_of_failure s env e he]
      simpa [idsAfter, he] using h
  | resizeStart index clientX => exact h
  | mouseMove clientX =>
    show List.Perm ((handleMouseMove s clientX).lineItems.map _) ids
    rw [handleMouseMove_lineItems]
    exact h
  | mouseUp => exact h
  | dragStart index => exact h
  | drop t =>
    show List.Perm ((handleDrop s t).lineItems.map _) ids
    exact (handleDrop_ids_perm s t hv hs).trans h
  | save p env =>
    cases p with
    | rejected e => exact h
    | resolved =>
      show List.Perm ((loadData { s with isLoading := true } env).1.lineItems.map _)
        (idsAfter s ids (.save .resolved env))
      cases he : loadError { s with isLoading := true } env with
      | none =>
        rw [loadData_ids_of_success _ env he]
        simp [idsAfter, he]
      | some e =>
        rw [loadData_lineItems_of_failure _ env e he]
        simpa [idsAfter, he] using h

theorem run_ids_perm (ops : List Op) (s : State) (ids : List JVal)
    (h : List.Perm (s.lineItems.map (fun row => row.id)) ids)
    (hv : allAlong indexValidAtEvent s ops = true)
    (hs : allAlong sourceValidAtDrop s ops = true) :
    List.Perm ((run s ops).lineItems.map (fun row => row.id)) (loadedIds s ids ops) := by
  induction ops generalizing s ids with
  | nil => exact h
  | cons op ops ih =>
    simp only [allAlong, Bool.and_eq_true] at hv hs
    exact ih (step s op) (idsAfter s ids op) (step_ids_perm s ids op h hv.1 hs.1) hv.2 hs.2

/-- Claim C20, amended: after a successful load and any sequence of drag start, drop, resize,
save and load operations in which each drag start index and each drop target index is a
row index at the time of its event, and the recorded source index is a row index at the
time of each drop, the row ids are a permutation of, and as many as, the ids of the
records returned by the most recent successful load. -/
theorem ids_permutation (s0 : State) (env0 : LoadEnv) (h0 : loadError s0 env0 = none)
    (ops : List Op)
    (hv : allAlong indexValidAtEvent (loadData s0 env0).1 ops = true)
    (hs : allAlong sourceValidAtDrop (loadData s0 env0).1 ops = true) :
    List.Perm ((run (loadData s0 env0).1 ops).lineItems.map (fun row => row.id))
      (loadedIds (loadData s0 env0).1 (fetchedIds env0) ops) ∧
    ((run (loadData s0 env0).1 ops).lineItems.map (fun row => row.id)).length =
      (loadedIds (loadData s0 env0).1 (fetchedIds env0) ops).length := by
  have hp := run_ids_perm ops (loadData s0 env0).1 (fetchedIds env0)
    (by rw [loadData_ids_of_success s0 env0 h0]) hv hs
  exact ⟨hp, hp.length_eq⟩

/-- Claim C20, counterexample: a source index recorded on a list of three rows, a reload
that returns one record, then a drop at index 0: every index was valid at its event, and
the rows are now two, the first without an id. -/
theorem stale_source_invents_row :
    loadError readyState envThreeRecords = none ∧
    allAlong indexValidAtEvent (loadData readyState envThreeRecords).1
      [.dragStart 2, .load envOneRecord, .drop 0] = true ∧
    loadedIds (loadData readyState envThreeRecords).1 (fetchedIds envThreeRecords)
      [.dragStart 2, .load envOneRecord, .drop 0] = [.str "009"] ∧
    (run (loadData readyState envThreeRecords).1
      [.dragStart 2, .load envOneRecord, .drop 0]).lineItems.map (fun row => row.id) =
      [.undefined, .str "009"] ∧
    ¬ List.Perm
      ((run (loadData readyState envThreeRecords).1
        [.dragStart 2, .load envOneRecord, .drop 0]).lineItems.map (fun row => row.id))
      (loadedIds (loadData readyState envThreeRecords).1 (fetchedIds envThreeRecords)
        [.dragStart 2, .load envOneRecord, .drop 0]) := by
  refine ⟨rfl, by decide, rfl, rfl, ?_⟩
  intro hp
  have := hp.length_eq
  exact absurd this (by decide)

/-- Two drags around a save keep the three loaded ids, in a new order. -/
theorem ids_permutation_witness :
    loadError readyState envThreeRecords = none ∧
    allAlong indexValidAtEvent (loadData readyState envThreeRecords).1
      [.dragStart 2, .drop 0, .save .resolved envThreeRecords, .dragStart 0, .drop 1] = true ∧
    allAlong sourceValidAtDrop (loadData readyState envThreeRecords).1
      [.dragStart 2, .drop 0, .save .resolved envThreeRecords, .dragStart 0, .drop 1] = true ∧
    (List.Perm
      ((run (loadData readyState envThreeRecords).1
        [.dragStart 2, .drop 0, .save .resolved envThreeRecords, .dragStart 0,
          .drop 1]).lineItems.map (fun row => row.id))
      (loadedIds (loadData readyState envThreeRecords).1 (fetchedIds envThreeRecords)
        [.dragStart 2, .drop 0, .save .resolved envThreeRecords, .dragStart 0, .drop 1]) ∧
    ((run (loadData readyState envThreeRecords).1
        [.dragStart 2, .drop 0, .save .resolved envThreeRecords, .dragStart 0,
          .drop 1]).lineItems.map (fun row => row.id)).length =
      (loadedIds (loadData readyState envThreeRecords).1 (fetchedIds envThreeRecords)
        [.dragStart 2, .drop 0, .save .resolved envThreeRecords, .dragStart 0,
          .drop 1]).length) ∧
    (run (loadData readyState envThreeRecords).1
        [.dragStart 2, .drop 0, .save .resolved envThreeRecords, .dragStart 0,
          .drop 1]).lineItems.map (fun row => row.id) =
      [.str "002", .str "001", .str "003"] :=
  ⟨rfl, by decide, by decide,
    ids_permutation readyState envThreeRecords rfl
      [.dragStart 2, .drop 0, .save .resolved envThreeRecords, .dragStart 0, .drop 1]
      (by decide) (by decide), rfl⟩

theorem inheritedMember_object_undefined (key : String) (h : key ∉ objectInheritedNames) :
    inheritedMember "Object" objectPrototypeMethods key = .undefined := by
  simp only [objectInheritedNames, List.mem_cons, not_or] at h
  obtain ⟨h1, h2, h3⟩ := h
  have h3' : key ∉ objectPrototypeMethods := by
    simpa [objectPrototypeMethods] using h3
  simp only [inheritedMember, if_neg h1, if_neg h2, if_neg h3', ite_self]

/-- Reading a key that an object neither holds nor inherits gives `undefined`. -/
theorem optGet_obj_undefined (props : List (String × JVal)) (key : String)
    (habs : key ∉ props.map Prod.fst) (hinh : key ∉ objectInheritedNames) :
    (JVal.obj props).optGet key = .undefined := by
  rw [optGet_obj_absent props key habs, inheritedMember_object_undefined key hinh]

/-- A call of `resolvedField` with a spec that is a string or absent returns. -/
theorem resolvedFieldAny_spec (typeError record : JVal) (spec : Option String) :
    resolvedFieldAny typeError record (specValue spec) = .ok (resolvedField record spec) := by
  cases spec with
  | none => simp [resolvedFieldAny, specValue, JVal.truthy, resolvedField]
  | some f =>
    by_cases hf : f = ""
    · subst hf
      simp [resolvedFieldAny, specValue, JVal.truthy, resolvedField]
    · cases ht : record.truthy with
      | false => simp [resolvedFieldAny, specValue, ht, resolvedField]
      | true =>
        have hs : (JVal.str f).truthy = true := truthy_str f hf
        show resolvedFieldAny typeError record (.str f) = _
        unfold resolvedFieldAny
        rw [ht, hs]
        rfl

/-- A call of `resolvedField` with a number as spec raises. -/
theorem resolvedFieldAny_number_raises (typeError : JVal) (props : List (String × JVal))
    (n : Int) (hn : n ≠ 0) :
    resolvedFieldAny typeError (.obj props) (.num n) = .error typeError := by
  have h1 : (JVal.num n).truthy = true := by simp [JVal.truthy, hn]
  have h2 : ((JVal.num n).optGet "includes").ofEngine = false := rfl
  simp [resolvedFieldAny, JVal.truthy, hn, h2]

/-- Claim C12, amended: called with a spec that is a string or absent, `resolvedField`
does not raise, as long as its result is not left to the engine's built-in objects; it
returns the empty string for a spec with more than one '.', for a plain or dotted spec
whose relation or field read gives `null` or `undefined`, which is so for a relation or
field that the record (or related record) neither holds nor inherits from
`Object.prototype`, for a record that is absent, and for a spec that is absent or
empty. -/
theorem resolvedField_degrades (typeError record : JVal)
    (props rprops : List (String × JVal)) :
    (∀ spec : Option String, resolvedField record spec ≠ .engineDefined →
      resolvedFieldAny typeError record (specValue spec) = .ok (resolvedField record spec)) ∧
    (∀ f : String, 2 ≤ f.toList.count '.' → resolvedField record (some f) = .str "") ∧
    (∀ f : String, '.' ∉ f.toList → (record.optGet f).isNullish = true →
      resolvedField record (some f) = .str "") ∧
    (∀ rel fld : String, '.' ∉ rel.toList → '.' ∉ fld.toList →
      ((record.optGet rel).isNullish = true ∨
        ((record.optGet rel).optGet fld).isNullish = true) →
      resolvedField record (some (rel ++ "." ++ fld)) = .str "") ∧
    (∀ f : String, '.' ∉ f.toList → f ∉ props.map Prod.fst → f ∉ objectInheritedNames →
      resolvedField (.obj props) (some f) = .str "") ∧
    (∀ rel fld : String, '.' ∉ rel.toList → '.' ∉ fld.toList → rel ∉ props.map Prod.fst →
      rel ∉ objectInheritedNames →
      resolvedField (.obj props) (some (rel ++ "." ++ fld)) = .str "") ∧
    (∀ rel fld : String, '.' ∉ rel.toList → '.' ∉ fld.toList →
      lookupProp props rel = .obj rprops → fld ∉ rprops.map Prod.fst →
      fld ∉ objectInheritedNames →
      resolvedField (.obj props) (some (rel ++ "." ++ fld)) = .str "") ∧
    (∀ f : Option String, resolvedField .undefined f = .str "" ∧
      resolvedField .null f = .str "") ∧
    resolvedField record none = .str "" ∧
    resolvedField record (some "") = .str "" := by
  refine ⟨fun spec _ => resolvedFieldAny_spec typeError record spec,
    fun f h => resolvedField_many_dots record f h,
    fun f hdot h => resolvedField_plain_nullish record f hdot h,
    fun rel fld hrel hfld h => resolvedField_dotted_nullish record rel fld hrel hfld h,
    ?_, ?_, ?_, ?_, rfl, resolvedField_empty_spec record⟩
  · intro f hdot habs hinh
    apply resolvedField_plain_nullish _ f hdot
    rw [optGet_obj_undefined props f habs hinh]; rfl
  · intro rel fld hrel hfld habs hinh
    apply resolvedField_dotted_nullish _ rel fld hrel hfld
    left
    rw [optGet_obj_undefined props rel habs hinh]; rfl
  · intro rel fld hrel hfld hr habs hinh
    apply resolvedField_dotted_nullish _ rel fld hrel hfld
    right
    rw [optGet_obj_of_value props rel (.obj rprops) hr rfl,
      optGet_obj_undefined rprops fld habs hinh]; rfl
  · intro f
    exact ⟨resolvedField_falsy_record .undefined rfl f, resolvedField_falsy_record .null rfl f⟩

/-- Claim C12, counterexample: the record holds no field `constructor` and its related record
holds no field `toString`, yet the specs "constructor" and "Account.toString" resolve to
the built-in members that objects inherit, not to the empty string. -/
theorem inherited_member_not_empty :
    "constructor" ∉ relatedRecordProps.map Prod.fst ∧
    resolvedField (.obj relatedRecordProps) (some "constructor") = .builtin "Object" ∧
    resolvedField (.obj relatedRecordProps) (some "constructor") ≠ .str "" ∧
    lookupProp relatedRecordProps "Account" = .obj [("Name", .str "Acme")] ∧
    "toString" ∉ [("Name", JVal.str "Acme")].map Prod.fst ∧
    resolvedField (.obj relatedRecordProps) (some "Account.toString") =
      .builtin "Object.prototype.toString" ∧
    resolvedField (.obj relatedRecordProps) (some "Account.toString") ≠ .str "" := by
  refine ⟨by decide, rfl, ?_, rfl, by decide, rfl, ?_⟩
  · intro h
    have h2 : JVal.builtin "Object" = .str "" := h
    cases h2
  · intro h
    have h2 : JVal.builtin "Object.prototype.toString" = .str "" := h
    cases h2

/-- Specs with two separators, an absent field of a related record, an absent relation and an
absent plain key all give the empty string, and the call returns. -/
theorem resolvedField_degrades_witness :
    2 ≤ "a.b.c".toList.count '.' ∧
    resolvedField (.obj relatedRecordProps) (some "a.b.c") = .str "" ∧
    resolvedField (.obj relatedRecordProps) (some ("Account" ++ "." ++ "Industry")) = .str "" ∧
    resolvedField (.obj relatedRecordProps) (some ("Owner" ++ "." ++ "Name")) = .str "" ∧
    resolvedField (.obj relatedRecordProps) (some "Amount") = .str "" ∧
    resolvedFieldAny (mkError "TypeError") (.obj relatedRecordProps) (specValue (some "Amount")) =
      .ok (resolvedField (.obj relatedRecordProps) (some "Amount")) :=
  ⟨by decide,
    (resolvedField_degrades (mkError "TypeError") (.obj relatedRecordProps) relatedRecordProps
      [("Name", .str "Acme")]).2.1 "a.b.c" (by decide),
    (resolvedField_degrades (mkError "TypeError") (.obj relatedRecordProps) relatedRecordProps
      [("Name", .str "Acme")]).2.2.2.2.2.2.1 "Account" "Industry" (by decide) (by decide) rfl
      (by decide) (by decide),
    (resolvedField_degrades (mkError "TypeError") (.obj relatedRecordProps) relatedRecordProps
      [("Name", .str "Acme")]).2.2.2.2.2.1 "Owner" "Name" (by decide) (by decide) (by decide)
      (by decide),
    (resolvedField_degrades (mkError "TypeError") (.obj relatedRecordProps) relatedRecordProps
      [("Name", .str "Acme")]).2.2.2.2.1 "Amount" (by decide) (by decide) (by decide),
    (resolvedField_degrades (mkError "TypeError") (.obj relatedRecordProps) relatedRecordProps
      [("Name", .str "Acme")]).1 (some "Amount") (by
        intro h
        have h2 : JVal.str "" = .engineDefined := h
        cases h2)⟩

theorem loadTry_trace (s : State) (env : LoadEnv) :
    (loadTry s env).2.2 =
      if configComplete s = true then
        [(s, Effect.getRecords s.childObjectApiName s.recordId s.parentFieldApiName
          s.sortFieldApiName s.fieldsCsv)]
      else [] := by
  rcases loadTry_cases s env with ⟨hc, -, -, he⟩ | ⟨hc, he, -⟩
  · rw [he]; simp [hc]
  · rw [he]; simp [hc]

/-- Claim C15: the state of the component at the moment `loadData` issues `getRecords` has
`isLoading` true, and the state when `loadData` completes has `isLoading` false; the
state at the moment `handleSave` issues `updateSortOrder`, and at the moment its reload
issues `getRecords`, has `isLoading` true, and the state when `handleSave` completes
has `isLoading` false; this holds for every prior state and every outcome of the fetch
and of the persist. -/
theorem isLoading_around_calls (s : State) (persist : PersistOutcome) (env : LoadEnv) :
    ((loadDataRun s env).2.filter fun o => o.2.isGetRecords).map (fun o => o.1.isLoading) =
      (if configComplete s = true then [true] else []) ∧
    (loadDataRun s env).1.isLoading = false ∧
    ((handleSaveRun s persist env).2.filter fun o => o.2.isUpdateSortOrder).map
      (fun o => o.1.isLoading) = [true] ∧
    ((handleSaveRun s persist env).2.filter fun o => o.2.isGetRecords).map
      (fun o => o.1.isLoading) =
      (match persist with
        | .resolved => if configComplete s = true then [true] else []
        | .rejected _ => []) ∧
    (handleSaveRun s persist env).1.isLoading = false ∧
    loadData s env = ((loadDataRun s env).1, (loadDataRun s env).2.map Prod.snd) ∧
    handleSave s persist env =
      ((handleSaveRun s persist env).1, (handleSaveRun s persist env).2.map Prod.snd) := by
  have hload : ∀ (s : State) (env : LoadEnv),
      ((loadDataRun s env).2.filter fun o => o.2.isGetRecords).map (fun o => o.1.isLoading) =
        (if configComplete s = true then [true] else []) ∧
      ((loadDataRun s env).2.filter fun o => o.2.isUpdateSortOrder) = [] := by
    intro s env
    have hc : configComplete (loadBegin s) = configComplete s := rfl
    rw [loadDataRun_snd, loadTry_trace, hc]
    cases configComplete s <;>
      simp [Effect.isGetRecords, Effect.isUpdateSortOrder, loadBegin]
  refine ⟨(hload s env).1, rfl, ?_, ?_, ?_, rfl, rfl⟩
  · cases persist with
    | rejected e => rfl
    | resolved =>
      have h := (hload { s with isLoading := true } env).2
      show (List.filter (fun o => o.2.isUpdateSortOrder)
        (({ s with isLoading := true },
            Effect.updateSortOrder (s.lineItems.map fun row => row.id) s.sortFieldApiName
              s.childObjectApiName) ::
          ({ s with isLoading := true },
            Effect.toast "成功" (.str "並び順を保存しました。") "success") ::
          (loadDataRun { s with isLoading := true } env).2)).map (fun o => o.1.isLoading) = [true]
      rw [List.filter_cons_of_pos rfl, List.filter_cons_of_neg (by simp [Effect.isUpdateSortOrder]),
        h]
      rfl
  · cases persist with
    | rejected e => rfl
    | resolved =>
      have h := (hload { s with isLoading := true } env).1
      have hc : configComplete { s with isLoading := true } = configComplete s := rfl
      rw [hc] at h
      show (List.filter (fun o => o.2.isGetRecords)
        (({ s with isLoading := true },
            Effect.updateSortOrder (s.lineItems.map fun row => row.id) s.sortFieldApiName
              s.childObjectApiName) ::
          ({ s with isLoading := true },
            Effect.toast "成功" (.str "並び順を保存しました。") "success") ::
          (loadDataRun { s with isLoading := true } env).2)).map (fun o => o.1.isLoading) = _
      rw [List.filter_cons_of_neg (by simp [Effect.isGetRecords]),
        List.filter_cons_of_neg (by simp [Effect.isGetRecords]), h]
  · cases persist <;> rfl

/-- A load and a save with every input set: the flag is up at each call. -/
theorem isLoading_around_calls_witness :
    ((loadDataRun readyState envThreeRecords).2.filter fun o => o.2.isGetRecords).map
      (fun o => o.1.isLoading) = [true] ∧
    ((handleSaveRun readyState .resolved envThreeRecords).2.filter
      fun o => o.2.isUpdateSortOrder).map (fun o => o.1.isLoading) = [true] ∧
    ((handleSaveRun readyState .resolved envThreeRecords).2.filter
      fun o => o.2.isGetRecords).map (fun o => o.1.isLoading) = [true] :=
  ⟨(isLoading_around_calls readyState .resolved envThreeRecords).1,
    (isLoading_around_calls readyState .resolved envThreeRecords).2.2.1,
    (isLoading_around_calls readyState .resolved envThreeRecords).2.2.2.1⟩

end LineItemSorter

namespace DynamicSelectList

theorem noValues_iff (vs : Option (List String)) :
    noValues vs = true ↔ (vs = none ∨ ∃ l, vs = some l ∧ l.length = 0) := by
  cases vs with
  | none => simp [noValues]
  | some l => simp [noValues]

theorem notValue_iff (v : Option String) :
    notValue v = true ↔ (v = none ∨ v = some "") := by
  cases v with
  | none => simp [notValue]
  | some x => simp [notValue]

theorem isValueEmpty_iff (c : Component) :
    (if c.isMultiSelect then noValues c.selectedValues else notValue c.selectedValue) = true ↔
      SelectionEmpty c := by
  unfold SelectionEmpty
  cases hm : c.isMultiSelect with
  | true => simpa using noValues_iff c.selectedValues
  | false => simpa using notValue_iff c.selectedValue

/-- Claim C18: `validate` returns `isValid` false exactly when `isRequired` is true and the
selection of the current mode is empty (`selectedValues` missing or of length 0 in
multi-select mode, `selectedValue` missing or empty in single-select mode), and then with
the required-field error message; in every other case it returns `isValid` true and no
message. -/
theorem validate_spec (c : Component) :
    ((validate c).isValid = false ↔ (c.isRequired = true ∧ SelectionEmpty c)) ∧
    ((c.isRequired = true ∧ SelectionEmpty c) →
      validate c = { isValid := false,
                     errorMessage := some "この項目は必須です。値を入力してください。" }) ∧
    (¬ (c.isRequired = true ∧ SelectionEmpty c) →
      validate c = { isValid := true, errorMessage := none }) := by
  have he := isValueEmpty_iff c
  cases hr : c.isRequired with
  | false => simp [validate, hr]
  | true =>
    by_cases hs : SelectionEmpty c
    · have h1 := he.mpr hs
      simp [validate, hr, hs, h1]
    · have h1 : ¬ ((if c.isMultiSelect then noValues c.selectedValues
          else notValue c.selectedValue) = true) := fun h => hs (he.mp h)
      simp [validate, hr, hs, h1]

/-- Required with nothing selected is invalid in both modes; not required, or required with a
selection, is valid. -/
theorem validate_spec_witness :
    (validate { isRequired := true, isMultiSelect := true, selectedValue := some "x",
                selectedValues := some [] }).isValid = false ∧
    validate { isRequired := true, isMultiSelect := false, selectedValue := some "",
               selectedValues := some ["a"] } =
      { isValid := false, errorMessage := some "この項目は必須です。値を入力してください。" } ∧
    validate { isRequired := false, isMultiSelect := false, selectedValue := none,
               selectedValues := none } = { isValid := true, errorMessage := none } ∧
    validate { isRequired := true, isMultiSelect := true, selectedValue := none,
               selectedValues := some ["a"] } = { isValid := true, errorMessage := none } :=
  ⟨(validate_spec _).1.mpr ⟨rfl, Or.inr ⟨[], rfl, rfl⟩⟩,
    (validate_spec _).2.1 ⟨rfl, Or.inr rfl⟩,
    (validate_spec _).2.2 (fun h => absurd h.1 (by decide)),
    (validate_spec _).2.2 (fun h => by
      rcases h.2 with h2 | ⟨vs, h2, h3⟩
      · cases h2
      · cases h2
        cases h3)⟩

end DynamicSelectList
